import Mathlib

/-! Device tracker: registry, persistence engine and router.

A shallow embedding of `app/devicetracker` (devicetracker.go, interface.go,
integration.go) and the properties of its specification.

Conventions of the embedding:

* a Go `map[string]V` is an association list with at most one entry per key
  (`GoMap`); a record pointer `*DeviceInfo` is an index into the tracker's list of
  allocated records, a `*DeviceTrackerManager` an index into the list of allocated
  managers, so that aliasing through pointers is visible;
* `int64` and `int` are `Int` with two's-complement wrap-around at 64 bits;
  `net.Port` (`uint16`) is `Fin 65536`;
* `time.Now()` is an argument of the operation that reads the clock;
* the file system is a map from paths to contents, and whether an operating
  system call succeeds is decided by an environment passed to the operation;
* locks are not modelled: every operation is one atomic step.
-/

namespace devicetracker

/-! ## Go values -/

/-- A Go map with string keys: an association list, one entry per key. -/
abbrev GoMap (V : Type) := List (String × V)

/-- The Go expression `m[key]` with the comma-ok result. -/
def mapGet {V : Type} : GoMap V → String → Option V
  | [], _ => none
  | (k, v) :: m, key => if k = key then some v else mapGet m key

/-- The Go statement `m[key] = v`. -/
def mapSet {V : Type} : GoMap V → String → V → GoMap V
  | [], key, v => [(key, v)]
  | (k, x) :: m, key, v => if k = key then (k, v) :: m else (k, x) :: mapSet m key v

/-- The keys of a Go map. -/
def mapKeys {V : Type} (m : GoMap V) : List String := m.map Prod.fst

/-- Two's-complement wrap-around of a 64-bit signed integer (`int64`, and `int` on a
64-bit target). -/
def wrapInt64 (x : Int) : Int := (x + 2 ^ 63) % 2 ^ 64 - 2 ^ 63

/-- Assignment through a pointer: the record at index `p` becomes `f` of itself. -/
def updateAt {α : Type} : List α → Nat → (α → α) → List α
  | [], _, _ => []
  | a :: l, 0, f => f a :: l
  | a :: l, p + 1, f => a :: updateAt l p f

/-- A wall-clock reading, `time.Time` broken into its calendar fields. -/
structure Time where
  year : Nat
  month : Nat
  day : Nat
  hour : Nat
  minute : Nat
  second : Nat
deriving DecidableEq, Repr

/-- The source of a connection, `net.Destination`: the address in its textual form
(`source.Address.String()`) and the port. The `Network` field is never read by this
package. -/
structure Destination where
  Address : String
  Port : Fin 65536
deriving DecidableEq, Repr

/-! ## devicetracker.go: the registry -/

/-- The record of one device, `DeviceInfo`. -/
structure DeviceInfo where
  IP : String
  Port : Int
  Country : String
  City : String
  FirstSeen : Time
  LastSeen : Time
  TotalUplink : Int
  TotalDownlink : Int
  ConnectionCount : Int
  Protocols : GoMap Bool
  Tags : GoMap Bool
deriving DecidableEq, Repr

/-- The tracker, `DeviceTracker`. `records` holds the allocated `DeviceInfo` objects
and `devices` maps a key to the index of its record (`map[string]*DeviceInfo`). -/
structure DeviceTracker where
  records : List DeviceInfo
  devices : GoMap Nat
  outputDir : String
  currentFile : String
deriving DecidableEq, Repr

/-- The key of an endpoint, `fmt.Sprintf("%s:%d", address, port)`. -/
def deviceKey (address : String) (port : Int) : String :=
  address ++ ":" ++ toString port

/-- The tail of `AddConnection`, run on the record whether it is new or not:
`device.ConnectionCount++`, `device.Protocols[protocol] = true` and, for a non-empty
tag, `device.Tags[tag] = true`. -/
def recordConnection (protocol tag : String) (device : DeviceInfo) : DeviceInfo :=
  { device with
    ConnectionCount := wrapInt64 (device.ConnectionCount + 1)
    Protocols := mapSet device.Protocols protocol true
    Tags := if tag ≠ "" then mapSet device.Tags tag true else device.Tags }

/-- The method `DeviceTracker.AddConnection`, with `now` the value of `time.Now()`. -/
def DeviceTracker.AddConnection (dt : DeviceTracker) (now : Time) (source : Destination)
    (protocol tag : String) : DeviceTracker :=
  let key := deviceKey source.Address source.Port.val
  match mapGet dt.devices key with
  | none =>
    let device : DeviceInfo :=
      { IP := source.Address
        Port := source.Port.val
        Country := "Unknown"
        City := "Unknown"
        FirstSeen := now
        LastSeen := now
        TotalUplink := 0
        TotalDownlink := 0
        ConnectionCount := 0
        Protocols := []
        Tags := [] }
    { dt with
      records := dt.records ++ [recordConnection protocol tag device]
      devices := mapSet dt.devices key dt.records.length }
  | some p =>
    { dt with
      records := updateAt dt.records p
        (fun device => recordConnection protocol tag { device with LastSeen := now }) }

/-- The method `DeviceTracker.AddTraffic`. -/
def DeviceTracker.AddTraffic (dt : DeviceTracker) (source : Destination)
    (uplink downlink : Int) : DeviceTracker :=
  let key := deviceKey source.Address source.Port.val
  match mapGet dt.devices key with
  | some p =>
    { dt with
      records := updateAt dt.records p (fun device =>
        { device with
          TotalUplink := wrapInt64 (device.TotalUplink + uplink)
          TotalDownlink := wrapInt64 (device.TotalDownlink + downlink) }) }
  | none => dt

/-- The record a pointer refers to in the tracker, if the pointer is allocated. -/
def DeviceTracker.deref (dt : DeviceTracker) (p : Nat) : Option DeviceInfo :=
  dt.records[p]?

/-- The method `DeviceTracker.GetDeviceInfo`, returning the pointer `dt.devices[key]`. -/
def DeviceTracker.GetDeviceInfo (dt : DeviceTracker) (ip : String) (port : Int) :
    Option Nat :=
  mapGet dt.devices (deviceKey ip port)

/-- The record of an endpoint as a caller of `GetDeviceInfo` reads it. -/
def DeviceTracker.lookup (dt : DeviceTracker) (ip : String) (port : Int) :
    Option DeviceInfo :=
  (dt.GetDeviceInfo ip port).bind dt.deref

/-- The method `DeviceTracker.GetAllDevices`: a new map that receives `result[k] = v`
for every entry of `dt.devices`; the values are the record pointers themselves. The
order of the `range` loop does not change the map that results. -/
def DeviceTracker.GetAllDevices (dt : DeviceTracker) : GoMap Nat :=
  dt.devices.foldl (fun result kv => mapSet result kv.1 kv.2) []

/-- A record read through a map returned by `GetAllDevices`, at the time the tracker
is in state `dt`. -/
def readThrough (s : GoMap Nat) (dt : DeviceTracker) (key : String) : Option DeviceInfo :=
  (mapGet s key).bind dt.deref

/-- The record stored under `key` in the tracker, read through its own map. -/
def DeviceTracker.recordAt (dt : DeviceTracker) (key : String) : Option DeviceInfo :=
  readThrough dt.devices dt key

/-- The device map is a well-formed Go map of valid pointers: every pointer stored in
it refers to an allocated record, and no key occurs twice. Every state reached from
an empty tracker is of this kind (`wf_run`). -/
def DeviceTracker.WF (dt : DeviceTracker) : Prop :=
  (∀ kp ∈ dt.devices, kp.2 < dt.records.length) ∧ (mapKeys dt.devices).Nodup

instance (dt : DeviceTracker) : Decidable dt.WF := by
  unfold DeviceTracker.WF; infer_instance

/-- A call made on the registry. -/
inductive RegistryCall where
  | addConnection (now : Time) (source : Destination) (protocol tag : String)
  | addTraffic (source : Destination) (uplink downlink : Int)
deriving DecidableEq, Repr

/-- One call applied to the tracker. -/
def DeviceTracker.call (dt : DeviceTracker) : RegistryCall → DeviceTracker
  | .addConnection now source protocol tag => dt.AddConnection now source protocol tag
  | .addTraffic source uplink downlink => dt.AddTraffic source uplink downlink

/-- A sequence of calls applied in order. -/
def DeviceTracker.run (dt : DeviceTracker) (calls : List RegistryCall) : DeviceTracker :=
  calls.foldl DeviceTracker.call dt

/-- The timestamps of the `AddConnection` calls made for endpoint `e`, in order. -/
def connectionTimes (e : Destination) : List RegistryCall → List Time
  | [] => []
  | .addConnection now source _ _ :: calls =>
    if source = e then now :: connectionTimes e calls else connectionTimes e calls
  | .addTraffic _ _ _ :: calls => connectionTimes e calls

/-! ## interface.go: the manager -/

/-- The conversion `net.Port(sourcePort)` of an `int` to `uint16`. -/
def toPort (sourcePort : Int) : Fin 65536 :=
  ⟨(sourcePort % 65536).toNat, by omega⟩

/-- The manager, `DeviceTrackerManager`: it owns the tracker it was created with. -/
structure DeviceTrackerManager where
  tracker : DeviceTracker
deriving DecidableEq, Repr

/-- The method `DeviceTrackerManager.AddConnection`. The package `net` is outside the
repository: `parseAddress s` stands for `net.ParseAddress(s).String()`, the textual form
of the address parsed from `s`. -/
def DeviceTrackerManager.AddConnection (parseAddress : String → String)
    (m : DeviceTrackerManager) (now : Time) (sourceIP : String) (sourcePort : Int)
    (protocol tag : String) : DeviceTrackerManager :=
  let source : Destination := { Address := parseAddress sourceIP, Port := toPort sourcePort }
  { m with tracker := m.tracker.AddConnection now source protocol tag }

/-- The method `DeviceTrackerManager.AddTraffic`. -/
def DeviceTrackerManager.AddTraffic (parseAddress : String → String)
    (m : DeviceTrackerManager) (sourceIP : String) (sourcePort : Int)
    (uplink downlink : Int) : DeviceTrackerManager :=
  let source : Destination := { Address := parseAddress sourceIP, Port := toPort sourcePort }
  { m with tracker := m.tracker.AddTraffic source uplink downlink }

/-- The method `DeviceTrackerManager.GetDeviceInfo`, read through to the record. -/
def DeviceTrackerManager.GetDeviceInfo (m : DeviceTrackerManager) (ip : String) (port : Int) :
    Option DeviceInfo :=
  m.tracker.lookup ip port

/-! ## integration.go: the router -/

/-- The router, `IntegrationManager`, together with the managers allocated in memory:
`trackers` is `map[string]*DeviceTrackerManager`, a stored pointer being `none` for
`nil` and `some p` for the manager at index `p` of `managers`. -/
structure IntegrationManager where
  managers : List DeviceTrackerManager
  trackers : GoMap (Option Nat)
deriving DecidableEq, Repr

/-- The method `IntegrationManager.RegisterTracker`. -/
def IntegrationManager.RegisterTracker (im : IntegrationManager) (tag : String)
    (tracker : Option Nat) : IntegrationManager :=
  { im with trackers := mapSet im.trackers tag tracker }

/-- The method `IntegrationManager.GetTracker`: `m.trackers[tag]`, which is `nil` for a
tag without a binding. -/
def IntegrationManager.GetTracker (im : IntegrationManager) (tag : String) : Option Nat :=
  match mapGet im.trackers tag with
  | some tracker => tracker
  | none => none

/-- The method `IntegrationManager.TrackTCPConnection`. -/
def IntegrationManager.TrackTCPConnection (parseAddress : String → String)
    (im : IntegrationManager) (now : Time) (source : Destination) (tag : String) :
    IntegrationManager :=
  match im.GetTracker tag with
  | some tracker =>
    { im with managers := updateAt im.managers tracker (fun m =>
        m.AddConnection parseAddress now source.Address source.Port.val "TCP" tag) }
  | none => im

/-- The method `IntegrationManager.TrackUDPConnection`. -/
def IntegrationManager.TrackUDPConnection (parseAddress : String → String)
    (im : IntegrationManager) (now : Time) (source : Destination) (tag : String) :
    IntegrationManager :=
  match im.GetTracker tag with
  | some tracker =>
    { im with managers := updateAt im.managers tracker (fun m =>
        m.AddConnection parseAddress now source.Address source.Port.val "UDP" tag) }
  | none => im

/-- The method `IntegrationManager.TrackTraffic`. Its body calls
`tracker.AddConnection(ctx, source.Address.String(), int(source.Port), "UDP", tag)`;
the arguments `uplink` and `downlink` are not used. -/
def IntegrationManager.TrackTraffic (parseAddress : String → String)
    (im : IntegrationManager) (now : Time) (source : Destination) (tag : String)
    (_uplink _downlink : Int) : IntegrationManager :=
  match im.GetTracker tag with
  | some tracker =>
    { im with managers := updateAt im.managers tracker (fun m =>
        m.AddConnection parseAddress now source.Address source.Port.val "UDP" tag) }
  | none => im

/-! ## Formatting: `fmt`, `time` and `path/filepath` -/

/-- The verb `%-Ns`: the text followed by blanks up to width `w`. -/
def padRight (w : Nat) (s : String) : String :=
  s ++ String.mk (List.replicate (w - s.length) ' ')

/-- A number in decimal with zeros in front up to width `w`, as the layouts `2006`,
`01`, `02`, `15`, `04` and `05` of `time.Format` print their fields. -/
def padZero (w : Nat) (n : Nat) : String :=
  String.mk (List.replicate (w - (toString n).length) '0') ++ toString n

/-- The method `Time.Format` with the layout `2006-01`. -/
def Time.formatMonth (t : Time) : String :=
  padZero 4 t.year ++ "-" ++ padZero 2 t.month

/-- The method `Time.Format` with the layout `2006-01-02 15:04:05`. -/
def Time.formatStamp (t : Time) : String :=
  padZero 4 t.year ++ "-" ++ padZero 2 t.month ++ "-" ++ padZero 2 t.day ++ " " ++
    padZero 2 t.hour ++ ":" ++ padZero 2 t.minute ++ ":" ++ padZero 2 t.second

/-- The number of low bits that do not fit the 53-bit significand of a `float64`. -/
def excessBits : Nat → Nat → Nat
  | 0, _ => 0
  | fuel + 1, a => if a < 2 ^ 53 then 0 else excessBits fuel (a / 2) + 1

/-- A quotient rounded to the nearest integer, ties to the even one. -/
def roundHalfEven (n d : Nat) : Nat :=
  let q := n / d
  let r := n % d
  if 2 * r > d ∨ (2 * r = d ∧ q % 2 = 1) then q + 1 else q

/-- The conversion `float64(x)` of an `int64`: the nearest value with a 53-bit
significand, ties to even. The result is again an integer. -/
def toFloat64 (x : Int) : Int :=
  let s := excessBits 64 x.natAbs
  let m := roundHalfEven x.natAbs (2 ^ s) * 2 ^ s
  if x < 0 then -(m : Int) else (m : Int)

/-- The traffic column: `float64(x) / (1024 * 1024)` printed with the verb `%.2f`. The
division by a power of two is exact, and the decimal is rounded to the nearest
hundredth, ties to even. -/
def formatMB (x : Int) : String :=
  let f := toFloat64 x
  let h := roundHalfEven (f.natAbs * 100) (1024 * 1024)
  (if f < 0 then "-" else "") ++ toString (h / 100) ++ "." ++ padZero 2 (h % 100)

/-- The elements of a path: the pieces between separators, empty pieces included. -/
def splitPath : List Char → List (List Char)
  | [] => [[]]
  | c :: cs =>
    if c = '/' then [] :: splitPath cs
    else
      match splitPath cs with
      | [] => [[c]]
      | e :: es => (c :: e) :: es

/-- One element processed by the loop of `filepath.Clean`. `stack` holds the elements
written so far, the last one first. An empty element and `.` are dropped; `..` removes
the last element written, or is itself written when there is nothing to remove in a
path that is not rooted; any other element is written. -/
def cleanStep (rooted : Bool) (stack : List (List Char)) (elem : List Char) :
    List (List Char) :=
  if elem = [] ∨ elem = ['.'] then stack
  else if elem = ['.', '.'] then
    match stack with
    | top :: rest => if top = ['.', '.'] then elem :: top :: rest else rest
    | [] => if rooted then [] else [elem]
  else elem :: stack

/-- Elements joined by separators. -/
def joinElems : List (List Char) → List Char
  | [] => []
  | [e] => e
  | e :: es => e ++ '/' :: joinElems es

/-- The function `filepath.Clean` for slash-separated paths. -/
def filepathClean (path : String) : String :=
  if path = "" then "."
  else
    let rooted := path.data.head? == some '/'
    let stack := (splitPath path.data).foldl (cleanStep rooted) []
    let out := (if rooted then ['/'] else []) ++ joinElems stack.reverse
    if out = [] then "." else String.mk out

/-- The function `filepath.Join` of a directory and a file name: the non-empty ones
joined by a separator and cleaned. -/
def filepathJoin (dir name : String) : String :=
  if dir ≠ "" then filepathClean (dir ++ "/" ++ name)
  else if name ≠ "" then filepathClean name
  else ""

/-- The function `filepath.Base`: the last element of the path, after trailing
separators are dropped. -/
def filepathBase (path : String) : String :=
  if path = "" then "."
  else
    let stripped := path.data.reverse.dropWhile (fun c => c == '/')
    let last := (stripped.takeWhile (fun c => c != '/')).reverse
    if last = [] then "/" else String.mk last

/-- Whether the text `s` begins with `sub`. -/
def startsWith : List Char → List Char → Bool
  | _, [] => true
  | [], _ :: _ => false
  | c :: s, x :: sub => c == x && startsWith s sub

/-- Whether `sub` occurs in `s`. -/
def occursIn : List Char → List Char → Bool
  | [], sub => startsWith [] sub
  | c :: s, sub => startsWith (c :: s) sub || occursIn s sub

/-- The function `strings.Contains`. -/
def stringsContains (s substr : String) : Bool :=
  occursIn s.data substr.data

/-! ## devicetracker.go: the persistence engine -/

/-- The file system: the content of every file that exists, by path. -/
abbrev Disk := GoMap String

/-- What the operating system and the Go runtime decide during one operation: whether
`os.MkdirAll`, `os.Create`, `os.OpenFile` and `WriteString` succeed, and the order in
which a `range` loop visits the entries of a map, which is some rearrangement of the
entries. -/
structure Env where
  mkdirOk : String → Bool
  createOk : String → Bool
  openOk : String → Bool
  writeOk : String → String → Bool
  order : {V : Type} → GoMap V → GoMap V
  order_perm : ∀ {V : Type} (m : GoMap V), (order m).Perm m

/-- The loops over `device.Protocols` and `device.Tags` in `saveToFile`: the keys
joined by commas. -/
def joinKeys (env : Env) (m : GoMap Bool) : String :=
  (env.order m).foldl (fun acc kv => (if acc ≠ "" then acc ++ "," else acc) ++ kv.1) ""

/-- The line `saveToFile` writes for one device. -/
def formatLine (env : Env) (device : DeviceInfo) : String :=
  padRight 15 device.IP ++ " " ++ padRight 8 (toString device.Port) ++ " " ++
    padRight 12 device.Country ++ " " ++ padRight 15 device.City ++ " " ++
    padRight 20 device.FirstSeen.formatStamp ++ " " ++
    padRight 20 device.LastSeen.formatStamp ++ " " ++
    padRight 12 (formatMB device.TotalUplink) ++ " " ++
    padRight 12 (formatMB device.TotalDownlink) ++ " " ++
    padRight 8 (toString device.ConnectionCount) ++ " " ++
    padRight 10 (joinKeys env device.Protocols) ++ " " ++
    padRight 15 (joinKeys env device.Tags) ++ "\n"

/-- The header `initializeMonthlyFile` writes to a new file. -/
def fileHeader (monthStr : String) (now : Time) : String :=
  "Device Tracker - " ++ monthStr ++ "\n" ++
    "Generated: " ++ now.formatStamp ++ "\n" ++
    "\n" ++
    padRight 15 "IP Address" ++ " " ++ padRight 8 "Port" ++ " " ++ padRight 12 "Country" ++ " " ++
    padRight 15 "City" ++ " " ++ padRight 20 "First Seen" ++ " " ++ padRight 20 "Last Seen" ++
    " " ++ padRight 12 "Uplink (MB)" ++ " " ++ padRight 12 "Downlink (MB)" ++ " " ++
    padRight 8 "Connections" ++ " " ++ padRight 10 "Protocols" ++ " " ++ padRight 15 "Tags" ++
    "\n" ++ String.mk (List.replicate 160 '-') ++ "\n"

/-- The lines of a flush put one after the other. -/
def concatLines : List String → String
  | [] => ""
  | line :: lines => line ++ concatLines lines

/-- The write loop of `saveToFile`: each line is appended in turn, and the loop stops at
the first `WriteString` that fails. The result is the content and whether every write
succeeded. A failed write is taken to append nothing. -/
def writeLines (env : Env) (filePath : String) : List String → String → String × Bool
  | [], content => (content, true)
  | line :: lines, content =>
    if env.writeOk filePath line then writeLines env filePath lines (content ++ line)
    else (content, false)

/-- The records `saveToFile` collects from the device map, in the order of its `range`
loop. A pointer that refers to no record, which no well-formed state holds, is
skipped. -/
def DeviceTracker.collect (env : Env) (dt : DeviceTracker) : List DeviceInfo :=
  (env.order dt.devices).filterMap (fun kp => dt.deref kp.2)

/-- The method `DeviceTracker.saveToFile`. The file is opened for appending and is
created empty when it does not exist. The result is the file system and the error
returned, `none` for `nil`. -/
def DeviceTracker.saveToFile (env : Env) (dt : DeviceTracker) (disk : Disk)
    (filePath : String) : Disk × Option String :=
  if env.openOk filePath then
    let content := (mapGet disk filePath).getD ""
    let lines := (dt.collect env).map (formatLine env)
    let written := writeLines env filePath lines content
    (mapSet disk filePath written.1,
      if written.2 then none else some "failed to write to file")
  else (disk, some "failed to open file for writing")

/-- The path of the file of the month of `now` in the output directory. -/
def monthlyFilePath (outputDir : String) (now : Time) : String :=
  filepathJoin outputDir ("devices_" ++ now.formatMonth ++ ".txt")

/-- The method `DeviceTracker.initializeMonthlyFile`, with `now` the value of
`time.Now()`. -/
def DeviceTracker.initializeMonthlyFile (env : Env) (dt : DeviceTracker) (disk : Disk)
    (now : Time) : DeviceTracker × Disk × Option String :=
  let monthStr := now.formatMonth
  let fileName := "devices_" ++ monthStr ++ ".txt"
  let filePath := filepathJoin dt.outputDir fileName
  if dt.currentFile = filePath then (dt, disk, none)
  else
    let disk1 := if dt.currentFile ≠ "" then (dt.saveToFile env disk dt.currentFile).1 else disk
    let dt1 := { dt with currentFile := filePath }
    if env.createOk filePath then
      let disk2 := mapSet disk1 filePath ""
      let header := fileHeader monthStr now
      if env.writeOk filePath header then (dt1, mapSet disk2 filePath header, none)
      else (dt1, disk2, some "write failed")
    else (dt1, disk1, some "failed to create monthly file")

/-- The function `NewDeviceTracker`, up to the start of the timer. -/
def NewDeviceTracker (env : Env) (disk : Disk) (now : Time) (outputDir : String) :
    Except String (DeviceTracker × Disk) :=
  let outputDir := if outputDir = "" then "./device_logs" else outputDir
  if env.mkdirOk outputDir then
    let dt : DeviceTracker :=
      { records := [], devices := [], outputDir := outputDir, currentFile := "" }
    match dt.initializeMonthlyFile env disk now with
    | (dt1, disk1, none) => .ok (dt1, disk1)
    | (_, _, some err) => .error err
  else .error "failed to create output directory"

/-- One tick of the timer in `DeviceTracker.periodicSave`. `now` is the clock read by
`periodicSave` and `nowInit` the clock read by `initializeMonthlyFile` when it is
called; `envInit` governs that call and `envSave` the flush that follows. The result
carries the warnings logged. -/
def DeviceTracker.periodicSave (envInit envSave : Env) (dt : DeviceTracker) (disk : Disk)
    (now nowInit : Time) : DeviceTracker × Disk × List String :=
  let currentMonth := now.formatMonth
  let rotated : DeviceTracker × Disk × List String :=
    if dt.currentFile ≠ "" ∧
        stringsContains (filepathBase dt.currentFile) currentMonth = false then
      match dt.initializeMonthlyFile envInit disk nowInit with
      | (dt1, disk1, none) => (dt1, disk1, [])
      | (dt1, disk1, some _) => (dt1, disk1, ["failed to initialize new monthly file"])
    else (dt, disk, [])
  let dt1 := rotated.1
  let disk1 := rotated.2.1
  if dt1.currentFile ≠ "" then
    match dt1.saveToFile envSave disk1 dt1.currentFile with
    | (disk2, none) => (dt1, disk2, rotated.2.2)
    | (disk2, some _) => (dt1, disk2, rotated.2.2 ++ ["failed to save device data"])
  else (dt1, disk1, rotated.2.2)

/-- The method `DeviceTracker.Close`. It writes no field of the tracker, which is
returned as it is next to the file system and the error. -/
def DeviceTracker.Close (env : Env) (dt : DeviceTracker) (disk : Disk) :
    DeviceTracker × Disk × Option String :=
  if dt.currentFile ≠ "" then
    let saved := dt.saveToFile env disk dt.currentFile
    (dt, saved.1, saved.2)
  else (dt, disk, none)

/-- The method `DeviceTrackerManager.Close`. -/
def DeviceTrackerManager.Close (env : Env) (m : DeviceTrackerManager) (disk : Disk) :
    DeviceTrackerManager × Disk × Option String :=
  let closed := m.tracker.Close env disk
  ({ m with tracker := closed.1 }, closed.2.1, closed.2.2)

/-! ## Vocabulary of the proofs -/

/-- The number a list of decimal digits stands for, most significant digit first,
continuing from `acc`. -/
def decValue (acc : Nat) (l : List Char) : Nat :=
  l.foldl (fun a c => 10 * a + (c.toNat - 48)) acc

/-- The endpoint key `k` is bound to pointer `p`, which refers to record `d` and is not the
pointer of any other key. -/
def Tracked (dt : DeviceTracker) (k : String) (p : Nat) (d : DeviceInfo) : Prop :=
  mapGet dt.devices k = some p ∧ dt.records[p]? = some d ∧
    ∀ k' p', mapGet dt.devices k' = some p' → k' ≠ k → p' ≠ p

/-- The text fields of the record hold no line break: the address, the country, the city
and every protocol and tag. -/
def DeviceInfo.plain (d : DeviceInfo) : Prop :=
  '\n' ∉ d.IP.data ∧ '\n' ∉ d.Country.data ∧ '\n' ∉ d.City.data ∧
    (∀ kv ∈ d.Protocols, '\n' ∉ kv.1.data) ∧ (∀ kv ∈ d.Tags, '\n' ∉ kv.1.data)

/-! ## Sample states -/

/-- A tracker with no records, writing to `logs/devices_2024-01.txt`. -/
def sampleTracker : DeviceTracker :=
  { records := [], devices := [], outputDir := "logs",
    currentFile := "logs/devices_2024-01.txt" }

/-- The endpoint 203.0.113.5:51000. -/
def sampleEndpoint : Destination := { Address := "203.0.113.5", Port := 51000 }

/-- Another endpoint, 198.51.100.7:443. -/
def otherEndpoint : Destination := { Address := "198.51.100.7", Port := 443 }

/-- The instant 2024-01-15 10:30:00 plus `s` seconds. -/
def sampleTime (s : Nat) : Time :=
  { year := 2024, month := 1, day := 15, hour := 10, minute := 30, second := s }

/-- Calls for `sampleEndpoint` at seconds 1, 4 and 9 mixed with traffic and with a
call for another endpoint. -/
def sampleCalls : List RegistryCall :=
  [ .addConnection (sampleTime 1) sampleEndpoint "TCP" "in1",
    .addTraffic sampleEndpoint 5 7,
    .addConnection (sampleTime 2) otherEndpoint "UDP" "",
    .addConnection (sampleTime 4) sampleEndpoint "UDP" "in1",
    .addTraffic otherEndpoint 1 1,
    .addConnection (sampleTime 9) sampleEndpoint "TCP" "in2" ]

/-- The tracker that has seen one TCP connection from `sampleEndpoint`. -/
def trackerWithOne : DeviceTracker :=
  sampleTracker.AddConnection (sampleTime 1) sampleEndpoint "TCP" "in1"

/-- A router with the single binding of tag "in1" to a manager whose tracker is empty. -/
def sampleRouter : IntegrationManager :=
  ({ managers := [{ tracker := sampleTracker }], trackers := [] } :
    IntegrationManager).RegisterTracker "in1" (some 0)

/-- An environment in which every call succeeds and maps are visited in the order of
their entries. -/
def okEnv : Env :=
  { mkdirOk := fun _ => true, createOk := fun _ => true, openOk := fun _ => true,
    writeOk := fun _ _ => true, order := fun m => m, order_perm := fun m => List.Perm.refl m }

/-- An environment in which every call succeeds and maps are visited in the reverse
order of their entries. -/
def reverseEnv : Env :=
  { mkdirOk := fun _ => true, createOk := fun _ => true, openOk := fun _ => true,
    writeOk := fun _ _ => true, order := fun m => m.reverse,
    order_perm := fun m => List.reverse_perm m }

/-- An environment in which no file can be created, and every other call succeeds. -/
def noCreateEnv : Env :=
  { mkdirOk := fun _ => true, createOk := fun _ => false, openOk := fun _ => true,
    writeOk := fun _ _ => true, order := fun m => m, order_perm := fun m => List.Perm.refl m }

/-- A file system holding the January file with a first line. -/
def sampleDisk : Disk := [("logs/devices_2024-01.txt", "Device Tracker - 2024-01\n")]

/-- The instant 2024-02-01 00:05:00, in the month after `sampleTime`. -/
def februaryTime : Time :=
  { year := 2024, month := 2, day := 1, hour := 0, minute := 5, second := 0 }

/-- The instant 2024-02-01 00:10:00, one tick after `februaryTime`. -/
def februaryLater : Time :=
  { year := 2024, month := 2, day := 1, hour := 0, minute := 10, second := 0 }

/-- The engine built by `NewDeviceTracker` with an empty output directory, which stands
for `./device_logs`, on an empty file system in January 2024. -/
def defaultStart : Except String (DeviceTracker × Disk) :=
  NewDeviceTracker okEnv [] (sampleTime 0) ""

/-- The tracker of `defaultStart`. -/
def defaultTracker : DeviceTracker :=
  match defaultStart with
  | .ok (dt, _) => dt
  | .error _ => sampleTracker

/-- The file system of `defaultStart`: the January file with its header. -/
def defaultDisk : Disk :=
  match defaultStart with
  | .ok (_, disk) => disk
  | .error _ => []

/-- The tracker of `defaultStart` after `sampleCalls` and 2097152 bytes up and 1048576
bytes down for `sampleEndpoint`. -/
def loadedTracker : DeviceTracker :=
  (defaultTracker.run sampleCalls).AddTraffic sampleEndpoint 2097152 1048576

/-- An environment in which the January file of `device_logs` cannot be opened, and every
other call succeeds. -/
def noAppendEnv : Env :=
  { mkdirOk := fun _ => true, createOk := fun _ => true,
    openOk := fun path => decide (path ≠ "device_logs/devices_2024-01.txt"),
    writeOk := fun _ _ => true, order := fun m => m, order_perm := fun m => List.Perm.refl m }

/-! # Properties -/

/-! ## Decimal rendering and keys -/

theorem digitChar_isDigit (k : Nat) (h : k < 10) : (Nat.digitChar k).isDigit = true := by
  revert k; decide

theorem digitChar_value (k : Nat) (h : k < 10) : (Nat.digitChar k).toNat - 48 = k := by
  revert k; decide

theorem toDigitsCore_isDigit (fuel : Nat) : ∀ (n : Nat) (ds : List Char),
    (∀ c ∈ ds, c.isDigit = true) → ∀ c ∈ Nat.toDigitsCore 10 fuel n ds, c.isDigit = true := by
  induction fuel with
  | zero => intro n ds h; simpa [Nat.toDigitsCore] using h
  | succ fuel ih =>
    intro n ds h
    have hd : ∀ c ∈ Nat.digitChar (n % 10) :: ds, c.isDigit = true := by
      intro c hc
      rcases List.mem_cons.1 hc with rfl | hc
      · exact digitChar_isDigit _ (Nat.mod_lt _ (by decide))
      · exact h c hc
    simp only [Nat.toDigitsCore]
    split
    · exact hd
    · exact ih _ _ hd

theorem toDigitsCore_value (fuel : Nat) : ∀ (n : Nat) (ds : List Char), n < fuel →
    decValue 0 (Nat.toDigitsCore 10 fuel n ds) = decValue n ds := by
  induction fuel with
  | zero => intro n ds h; omega
  | succ fuel ih =>
    intro n ds h
    simp only [Nat.toDigitsCore]
    split
    · rename_i h0
      simp only [decValue, List.foldl_cons, digitChar_value _ (Nat.mod_lt n (by decide : 10 > 0))]
      congr 1
      omega
    · rename_i h0
      rw [ih _ _ (by omega)]
      simp only [decValue, List.foldl_cons, digitChar_value _ (Nat.mod_lt n (by decide : 10 > 0))]
      congr 1
      omega

theorem natRepr_isDigit (n : Nat) : ∀ c ∈ (toString n).data, c.isDigit = true := by
  show ∀ c ∈ (Nat.repr n).data, c.isDigit = true
  simp only [Nat.repr, List.asString, Nat.toDigits]
  exact toDigitsCore_isDigit _ _ _ (by simp)

theorem natRepr_injective (n m : Nat) (h : toString n = toString m) : n = m := by
  have h1 : (Nat.repr n).data = (Nat.repr m).data := congrArg String.data h
  simp only [Nat.repr, List.asString, Nat.toDigits] at h1
  have hn := toDigitsCore_value (n + 1) n [] (by omega)
  have hm := toDigitsCore_value (m + 1) m [] (by omega)
  rw [h1, hm] at hn
  simpa [decValue] using hn.symm

theorem append_sep_inj (sep : Char) : ∀ (a b r1 r2 : List Char), sep ∉ r1 → sep ∉ r2 →
    a ++ sep :: r1 = b ++ sep :: r2 → a = b ∧ r1 = r2 := by
  intro a
  induction a with
  | nil =>
    intro b r1 r2 h1 h2 h
    cases b with
    | nil => simpa using h
    | cons c b =>
      simp only [List.nil_append, List.cons_append, List.cons.injEq] at h
      exact absurd (h.2 ▸ (by simp : sep ∈ b ++ sep :: r2)) h1
  | cons x a ih =>
    intro b r1 r2 h1 h2 h
    cases b with
    | nil =>
      simp only [List.nil_append, List.cons_append, List.cons.injEq] at h
      exact absurd (h.2 ▸ (by simp : sep ∈ a ++ sep :: r1)) h2
    | cons c b =>
      simp only [List.cons_append, List.cons.injEq] at h
      obtain ⟨rfl, h⟩ := h
      obtain ⟨rfl, rfl⟩ := ih b r1 r2 h1 h2 h
      exact ⟨rfl, rfl⟩

/-! ## Maps, pointers and machine integers -/

theorem wrapInt64_add (a b : Int) : wrapInt64 (wrapInt64 a + b) = wrapInt64 (a + b) := by
  unfold wrapInt64
  norm_num
  omega

theorem wrapInt64_of_range (a : Int) (h1 : -2 ^ 63 ≤ a) (h2 : a < 2 ^ 63) : wrapInt64 a = a := by
  unfold wrapInt64
  norm_num at *
  omega

theorem mapGet_mapSet_same {V : Type} (m : GoMap V) (k : String) (v : V) :
    mapGet (mapSet m k v) k = some v := by
  induction m with
  | nil => simp [mapSet, mapGet]
  | cons kv m ih =>
    obtain ⟨k', x⟩ := kv
    by_cases h : k' = k
    · simp [mapSet, mapGet, h]
    · simp [mapSet, mapGet, h, ih]

theorem mapGet_mapSet_other {V : Type} (m : GoMap V) (k k' : String) (v : V) (h : k' ≠ k) :
    mapGet (mapSet m k v) k' = mapGet m k' := by
  induction m with
  | nil => simp [mapSet, mapGet, Ne.symm h]
  | cons kv m ih =>
    obtain ⟨k1, x⟩ := kv
    by_cases h1 : k1 = k
    · subst h1
      simp [mapSet, mapGet, Ne.symm h]
    · by_cases h2 : k1 = k'
      · subst h2
        simp [mapSet, mapGet, h1]
      · simp [mapSet, mapGet, h1, h2, ih]

theorem mapSet_of_absent {V : Type} (m : GoMap V) (k : String) (v : V)
    (h : mapGet m k = none) : mapSet m k v = m ++ [(k, v)] := by
  induction m with
  | nil => simp [mapSet]
  | cons kv m ih =>
    obtain ⟨k1, x⟩ := kv
    by_cases h1 : k1 = k
    · simp [mapGet, h1] at h
    · simp only [mapGet, h1, if_false] at h
      simp [mapSet, h1, ih h]

theorem mapGet_mem {V : Type} (m : GoMap V) (k : String) (v : V)
    (h : mapGet m k = some v) : (k, v) ∈ m := by
  induction m with
  | nil => simp [mapGet] at h
  | cons kv m ih =>
    obtain ⟨k1, x⟩ := kv
    by_cases h1 : k1 = k
    · simp [mapGet, h1] at h
      simp [h1, h]
    · simp only [mapGet, h1, if_false] at h
      exact List.mem_cons_of_mem _ (ih h)

theorem mapGet_none_not_mem {V : Type} (m : GoMap V) (k : String)
    (h : mapGet m k = none) : k ∉ mapKeys m := by
  induction m with
  | nil => simp [mapKeys]
  | cons kv m ih =>
    obtain ⟨k1, x⟩ := kv
    by_cases h1 : k1 = k
    · simp [mapGet, h1] at h
    · simp only [mapGet, h1, if_false] at h
      simp only [mapKeys, List.map_cons, List.mem_cons, not_or]
      exact ⟨Ne.symm h1, ih h⟩

theorem length_updateAt {α : Type} (l : List α) (p : Nat) (f : α → α) :
    (updateAt l p f).length = l.length := by
  induction l generalizing p with
  | nil => simp [updateAt]
  | cons a l ih => cases p <;> simp [updateAt, ih]

theorem updateAt_get_same {α : Type} (l : List α) (p : Nat) (f : α → α) :
    (updateAt l p f)[p]? = l[p]?.map f := by
  induction l generalizing p with
  | nil => simp [updateAt]
  | cons a l ih => cases p <;> simp [updateAt, ih]

theorem updateAt_get_other {α : Type} (l : List α) (p q : Nat) (f : α → α) (h : q ≠ p) :
    (updateAt l p f)[q]? = l[q]? := by
  induction l generalizing p q with
  | nil => simp [updateAt]
  | cons a l ih =>
    cases p with
    | zero =>
      cases q with
      | zero => exact absurd rfl h
      | succ q => simp [updateAt]
    | succ p =>
      cases q with
      | zero => simp [updateAt]
      | succ q => simpa [updateAt] using ih p q (by omega)

/-! ## The registry -/

theorem deviceKey_data (a : String) (n : Nat) :
    (deviceKey a (n : Int)).data = a.data ++ ':' :: (toString n).data := by
  simp [deviceKey, String.data_append]
  rfl

theorem deviceKey_inj (a b : Destination)
    (h : deviceKey a.Address a.Port.val = deviceKey b.Address b.Port.val) : a = b := by
  have h1 := congrArg String.data h
  rw [deviceKey_data, deviceKey_data] at h1
  have nocolon : ∀ n : Nat, ':' ∉ (toString n).data := by
    intro n hn
    have := natRepr_isDigit n _ hn
    revert this
    decide
  obtain ⟨h2, h3⟩ := append_sep_inj ':' _ _ _ _ (nocolon _) (nocolon _) h1
  have h4 : a.Port.val = b.Port.val := natRepr_injective _ _ (String.ext_iff.2 h3)
  obtain ⟨aa, ap⟩ := a
  obtain ⟨ba, bp⟩ := b
  simp only [Destination.mk.injEq]
  exact ⟨String.ext_iff.2 h2, Fin.ext h4⟩

theorem addConnection_of_none (dt : DeviceTracker) (now : Time) (src : Destination)
    (protocol tag : String)
    (h : mapGet dt.devices (deviceKey src.Address src.Port.val) = none) :
    dt.AddConnection now src protocol tag =
      { dt with
        records := dt.records ++ [recordConnection protocol tag
          { IP := src.Address, Port := src.Port.val, Country := "Unknown", City := "Unknown",
            FirstSeen := now, LastSeen := now, TotalUplink := 0, TotalDownlink := 0,
            ConnectionCount := 0, Protocols := [], Tags := [] }]
        devices := mapSet dt.devices (deviceKey src.Address src.Port.val) dt.records.length } := by
  simp only [DeviceTracker.AddConnection, h]

theorem addConnection_of_some (dt : DeviceTracker) (now : Time) (src : Destination)
    (protocol tag : String) (p : Nat)
    (h : mapGet dt.devices (deviceKey src.Address src.Port.val) = some p) :
    dt.AddConnection now src protocol tag =
      { dt with
        records := updateAt dt.records p
          (fun device => recordConnection protocol tag { device with LastSeen := now }) } := by
  simp only [DeviceTracker.AddConnection, h]

theorem addTraffic_of_none (dt : DeviceTracker) (src : Destination) (u dn : Int)
    (h : mapGet dt.devices (deviceKey src.Address src.Port.val) = none) :
    dt.AddTraffic src u dn = dt := by
  simp only [DeviceTracker.AddTraffic, h]

theorem addTraffic_of_some (dt : DeviceTracker) (src : Destination) (u dn : Int) (p : Nat)
    (h : mapGet dt.devices (deviceKey src.Address src.Port.val) = some p) :
    dt.AddTraffic src u dn =
      { dt with
        records := updateAt dt.records p (fun device =>
          { device with
            TotalUplink := wrapInt64 (device.TotalUplink + u)
            TotalDownlink := wrapInt64 (device.TotalDownlink + dn) }) } := by
  simp only [DeviceTracker.AddTraffic, h]

theorem tracked_addConnection_same (dt : DeviceTracker) (e : Destination) (p : Nat)
    (d : DeviceInfo) (now : Time) (protocol tag : String)
    (h : Tracked dt (deviceKey e.Address e.Port.val) p d) :
    Tracked (dt.AddConnection now e protocol tag) (deviceKey e.Address e.Port.val) p
      (recordConnection protocol tag { d with LastSeen := now }) := by
  obtain ⟨h1, h2, h3⟩ := h
  rw [addConnection_of_some _ _ _ _ _ _ h1]
  refine ⟨h1, ?_, h3⟩
  simp [updateAt_get_same, h2]

theorem tracked_addConnection_other (dt : DeviceTracker) (e src : Destination) (p : Nat)
    (d : DeviceInfo) (now : Time) (protocol tag : String) (hne : src ≠ e)
    (h : Tracked dt (deviceKey e.Address e.Port.val) p d) :
    Tracked (dt.AddConnection now src protocol tag) (deviceKey e.Address e.Port.val) p d := by
  obtain ⟨h1, h2, h3⟩ := h
  have hk : deviceKey e.Address e.Port.val ≠ deviceKey src.Address src.Port.val :=
    fun hk => hne (deviceKey_inj _ _ hk).symm
  have hp : p < dt.records.length := by
    rcases Nat.lt_or_ge p dt.records.length with hlt | hge
    · exact hlt
    · rw [List.getElem?_eq_none hge] at h2; cases h2
  cases hs : mapGet dt.devices (deviceKey src.Address src.Port.val) with
  | none =>
    rw [addConnection_of_none _ _ _ _ _ hs]
    refine ⟨?_, ?_, ?_⟩
    · simpa [mapGet_mapSet_other _ _ _ _ hk] using h1
    · simp [List.getElem?_append_left hp, h2]
    · intro k' p' hk' hne'
      by_cases hks : k' = deviceKey src.Address src.Port.val
      · subst hks
        simp only [mapGet_mapSet_same, Option.some.injEq] at hk'
        omega
      · simp only [mapGet_mapSet_other _ _ _ _ hks] at hk'
        exact h3 k' p' hk' hne'
  | some q =>
    rw [addConnection_of_some _ _ _ _ _ _ hs]
    have hq : p ≠ q := fun hpq => h3 _ q hs (Ne.symm hk) hpq.symm
    refine ⟨h1, ?_, h3⟩
    simp [updateAt_get_other _ _ _ _ hq, h2]

theorem tracked_addTraffic (dt : DeviceTracker) (e src : Destination) (p : Nat)
    (d : DeviceInfo) (u dn : Int)
    (h : Tracked dt (deviceKey e.Address e.Port.val) p d) :
    ∃ d', Tracked (dt.AddTraffic src u dn) (deviceKey e.Address e.Port.val) p d' ∧
      d'.ConnectionCount = d.ConnectionCount ∧ d'.FirstSeen = d.FirstSeen ∧
      d'.LastSeen = d.LastSeen := by
  obtain ⟨h1, h2, h3⟩ := h
  cases hs : mapGet dt.devices (deviceKey src.Address src.Port.val) with
  | none =>
    rw [addTraffic_of_none _ _ _ _ hs]
    exact ⟨d, ⟨h1, h2, h3⟩, rfl, rfl, rfl⟩
  | some q =>
    rw [addTraffic_of_some _ _ _ _ _ hs]
    by_cases hq : p = q
    · subst hq
      refine ⟨{ d with
          TotalUplink := wrapInt64 (d.TotalUplink + u)
          TotalDownlink := wrapInt64 (d.TotalDownlink + dn) }, ⟨h1, ?_, h3⟩, rfl, rfl, rfl⟩
      simp only [updateAt_get_same, h2, Option.map_some']
    · refine ⟨d, ⟨h1, ?_, h3⟩, rfl, rfl, rfl⟩
      simp [updateAt_get_other _ _ _ _ hq, h2]

theorem wrapInt64_idem (a : Int) : wrapInt64 (wrapInt64 a) = wrapInt64 a := by
  have h := wrapInt64_add a 0
  simpa using h

theorem tracked_run (e : Destination) (calls : List RegistryCall) :
    ∀ (dt : DeviceTracker) (p : Nat) (d : DeviceInfo),
      Tracked dt (deviceKey e.Address e.Port.val) p d →
      wrapInt64 d.ConnectionCount = d.ConnectionCount →
      ∃ d', Tracked (dt.run calls) (deviceKey e.Address e.Port.val) p d' ∧
        d'.ConnectionCount = wrapInt64 (d.ConnectionCount + (connectionTimes e calls).length) ∧
        d'.FirstSeen = d.FirstSeen ∧
        d'.LastSeen = ((connectionTimes e calls).getLast?).getD d.LastSeen := by
  induction calls with
  | nil =>
    intro dt p d h hr
    exact ⟨d, h, by simpa [connectionTimes] using hr.symm, rfl, rfl⟩
  | cons c calls ih =>
    intro dt p d h hr
    cases c with
    | addConnection now src protocol tag =>
      by_cases hsrc : src = e
      · subst hsrc
        have h1 := tracked_addConnection_same dt src p d now protocol tag h
        obtain ⟨d', ht, hc, hf, hl⟩ := ih _ p _ h1 (wrapInt64_idem _)
        refine ⟨d', ht, ?_, hf, ?_⟩
        · rw [hc]
          simp only [recordConnection, connectionTimes, if_true, List.length_cons]
          rw [wrapInt64_add]
          congr 1
          push_cast
          ring
        · rw [hl]
          simp only [recordConnection, connectionTimes, if_true]
          cases connectionTimes src calls with
          | nil => rfl
          | cons t ts =>
            rw [List.getLast?_eq_getLast _ (List.cons_ne_nil _ _),
              List.getLast?_eq_getLast _ (List.cons_ne_nil _ _)]
            rfl
      · have h1 := tracked_addConnection_other dt e src p d now protocol tag hsrc h
        obtain ⟨d', ht, hc, hf, hl⟩ := ih _ p _ h1 hr
        exact ⟨d', ht, by simpa [connectionTimes, hsrc] using hc, hf,
          by simpa [connectionTimes, hsrc] using hl⟩
    | addTraffic src u dn =>
      obtain ⟨d1, h1, hc1, hf1, hl1⟩ := tracked_addTraffic dt e src p d u dn h
      obtain ⟨d', ht, hc, hf, hl⟩ := ih _ p _ h1 (by rw [hc1]; exact hr)
      exact ⟨d', ht, by simpa [connectionTimes, hc1] using hc, by rw [hf, hf1],
        by simpa [connectionTimes, hl1] using hl⟩

theorem wf_addConnection (dt : DeviceTracker) (now : Time) (src : Destination)
    (protocol tag : String) (h : dt.WF) : (dt.AddConnection now src protocol tag).WF := by
  cases hs : mapGet dt.devices (deviceKey src.Address src.Port.val) with
  | none =>
    rw [addConnection_of_none _ _ _ _ _ hs]
    refine ⟨?_, ?_⟩
    · intro kp hkp
      simp only [mapSet_of_absent _ _ _ hs, List.mem_append, List.mem_singleton] at hkp
      simp only [List.length_append, List.length_singleton]
      rcases hkp with hkp | rfl
      · exact Nat.lt_succ_of_lt (h.1 kp hkp)
      · exact Nat.lt_succ_self _
    · simp only [mapSet_of_absent _ _ _ hs, mapKeys, List.map_append, List.map_cons,
        List.map_nil]
      refine List.Nodup.append h.2 (List.nodup_singleton _) ?_
      intro k hk1 hk2
      rw [List.mem_singleton] at hk2
      subst hk2
      exact mapGet_none_not_mem _ _ hs hk1
  | some q =>
    rw [addConnection_of_some _ _ _ _ _ _ hs]
    refine ⟨?_, h.2⟩
    intro kp hkp
    simp only [length_updateAt]
    exact h.1 kp hkp

theorem wf_addTraffic (dt : DeviceTracker) (src : Destination) (u dn : Int) (h : dt.WF) :
    (dt.AddTraffic src u dn).WF := by
  cases hs : mapGet dt.devices (deviceKey src.Address src.Port.val) with
  | none => rw [addTraffic_of_none _ _ _ _ hs]; exact h
  | some q =>
    rw [addTraffic_of_some _ _ _ _ _ hs]
    refine ⟨?_, h.2⟩
    intro kp hkp
    simp only [length_updateAt]
    exact h.1 kp hkp

theorem wf_run (calls : List RegistryCall) : ∀ (dt : DeviceTracker), dt.WF → (dt.run calls).WF := by
  induction calls with
  | nil => intro dt h; exact h
  | cons c calls ih =>
    intro dt h
    cases c with
    | addConnection now src protocol tag => exact ih _ (wf_addConnection dt now src protocol tag h)
    | addTraffic src u dn => exact ih _ (wf_addTraffic dt src u dn h)

theorem tracked_first (dt : DeviceTracker) (e : Destination) (now : Time)
    (protocol tag : String) (hwf : dt.WF)
    (hnone : mapGet dt.devices (deviceKey e.Address e.Port.val) = none) :
    ∃ d, Tracked (dt.AddConnection now e protocol tag) (deviceKey e.Address e.Port.val)
        dt.records.length d ∧
      d.ConnectionCount = 1 ∧ d.FirstSeen = now ∧ d.LastSeen = now := by
  rw [addConnection_of_none _ _ _ _ _ hnone]
  refine ⟨recordConnection protocol tag
          { IP := e.Address, Port := e.Port.val, Country := "Unknown", City := "Unknown",
            FirstSeen := now, LastSeen := now, TotalUplink := 0, TotalDownlink := 0,
            ConnectionCount := 0, Protocols := [], Tags := [] },
    ⟨mapGet_mapSet_same _ _ _, ?_, ?_⟩, ?_, rfl, rfl⟩
  · simp
  · intro k' p' hk' hne
    simp only [mapGet_mapSet_other _ _ _ _ hne] at hk'
    exact Nat.ne_of_lt (hwf.1 _ (mapGet_mem _ _ _ hk'))
  · simp only [recordConnection]
    decide

theorem untracked_run (e : Destination) (calls : List RegistryCall) :
    ∀ (dt : DeviceTracker), dt.WF →
      mapGet dt.devices (deviceKey e.Address e.Port.val) = none →
      ∀ (t1 : Time) (rest : List Time), connectionTimes e calls = t1 :: rest →
      ∃ p d, Tracked (dt.run calls) (deviceKey e.Address e.Port.val) p d ∧
        d.ConnectionCount = wrapInt64 (1 + rest.length) ∧ d.FirstSeen = t1 ∧
        d.LastSeen = (rest.getLast?).getD t1 := by
  induction calls with
  | nil => intro dt _ _ t1 rest h; simp [connectionTimes] at h
  | cons c calls ih =>
    intro dt hwf hnone t1 rest h
    cases c with
    | addConnection now src protocol tag =>
      by_cases hsrc : src = e
      · subst hsrc
        simp only [connectionTimes, if_true, List.cons.injEq] at h
        obtain ⟨rfl, rfl⟩ := h
        obtain ⟨d, ht, hc, hf, hl⟩ := tracked_first dt src now protocol tag hwf hnone
        obtain ⟨d', ht', hc', hf', hl'⟩ := tracked_run src calls _ _ d ht (by rw [hc]; decide)
        exact ⟨_, d', ht', by rw [hc', hc], by rw [hf', hf], by rw [hl', hl]⟩
      · simp only [connectionTimes, hsrc, if_false] at h
        have hk : deviceKey e.Address e.Port.val ≠ deviceKey src.Address src.Port.val :=
          fun hk => hsrc (deviceKey_inj _ _ hk).symm
        refine ih _ (wf_addConnection dt now src protocol tag hwf) ?_ t1 rest h
        cases hs : mapGet dt.devices (deviceKey src.Address src.Port.val) with
        | none =>
          rw [addConnection_of_none _ _ _ _ _ hs]
          simpa [mapGet_mapSet_other _ _ _ _ hk] using hnone
        | some q =>
          rw [addConnection_of_some _ _ _ _ _ _ hs]
          exact hnone
    | addTraffic src u dn =>
      simp only [connectionTimes] at h
      refine ih _ (wf_addTraffic dt src u dn hwf) ?_ t1 rest h
      cases hs : mapGet dt.devices (deviceKey src.Address src.Port.val) with
      | none => rw [addTraffic_of_none _ _ _ _ hs]; exact hnone
      | some q => rw [addTraffic_of_some _ _ _ _ _ hs]; exact hnone

/-- C1. From a state in which the endpoint `e` has no record, after any sequence of calls
in which `AddConnection` is called for `e` at the times t1, ..., tN (N at least 1, and
within the range of a Go `int`), with any protocols and tags and with `AddTraffic`
calls and calls for other endpoints in between, the record of `e` has
`ConnectionCount = N`, `FirstSeen = t1` and `LastSeen = tN`. -/
theorem addConnection_count_firstSeen_lastSeen (dt : DeviceTracker) (e : Destination)
    (calls : List RegistryCall) (hwf : dt.WF)
    (hnone : dt.GetDeviceInfo e.Address e.Port.val = none)
    (hN : 1 ≤ (connectionTimes e calls).length)
    (hInt : ((connectionTimes e calls).length : Int) < 2 ^ 63) :
    ∃ d, (dt.run calls).lookup e.Address e.Port.val = some d ∧
      d.ConnectionCount = (connectionTimes e calls).length ∧
      some d.FirstSeen = (connectionTimes e calls).head? ∧
      some d.LastSeen = (connectionTimes e calls).getLast? := by
  cases hts : connectionTimes e calls with
  | nil => simp [hts] at hN
  | cons t1 rest =>
    obtain ⟨p, d, ⟨h1, h2, _⟩, hc, hf, hl⟩ := untracked_run e calls dt hwf hnone t1 rest hts
    refine ⟨d, ?_, ?_, ?_, ?_⟩
    · simp [DeviceTracker.lookup, DeviceTracker.GetDeviceInfo, DeviceTracker.deref, h1, h2]
    · rw [hc]
      rw [hts] at hInt
      simp only [List.length_cons, Nat.cast_add, Nat.cast_one] at hInt ⊢
      rw [wrapInt64_of_range] <;> omega
    · simp [hf]
    · rw [hl]
      cases rest with
      | nil => rfl
      | cons t ts =>
        rw [List.getLast?_eq_getLast _ (List.cons_ne_nil _ _),
          List.getLast?_eq_getLast _ (List.cons_ne_nil _ _)]
        rfl

/-- Witness of C1: three connections of `sampleEndpoint` among other calls. -/
theorem addConnection_count_firstSeen_lastSeen_witness :
    sampleTracker.WF ∧
    sampleTracker.GetDeviceInfo sampleEndpoint.Address sampleEndpoint.Port.val = none ∧
    connectionTimes sampleEndpoint sampleCalls = [sampleTime 1, sampleTime 4, sampleTime 9] ∧
    ∃ d, (sampleTracker.run sampleCalls).lookup sampleEndpoint.Address
        sampleEndpoint.Port.val = some d ∧
      d.ConnectionCount = (connectionTimes sampleEndpoint sampleCalls).length ∧
      some d.FirstSeen = (connectionTimes sampleEndpoint sampleCalls).head? ∧
      some d.LastSeen = (connectionTimes sampleEndpoint sampleCalls).getLast? :=
  ⟨by decide, by decide, by decide,
    addConnection_count_firstSeen_lastSeen sampleTracker sampleEndpoint sampleCalls
      (by decide) (by decide) (by decide) (by decide)⟩

/-- C3. An `AddTraffic` call for an endpoint that has no record leaves the whole tracker
as it was: the same keys, no new record, and every record with all of its fields. -/
theorem addTraffic_unknown_endpoint_unchanged (dt : DeviceTracker) (e : Destination)
    (uplink downlink : Int) (hnone : dt.GetDeviceInfo e.Address e.Port.val = none) :
    dt.AddTraffic e uplink downlink = dt ∧
      mapKeys (dt.AddTraffic e uplink downlink).devices = mapKeys dt.devices ∧
      (dt.AddTraffic e uplink downlink).GetDeviceInfo e.Address e.Port.val = none ∧
      (dt.AddTraffic e uplink downlink).records = dt.records := by
  have h : dt.AddTraffic e uplink downlink = dt := addTraffic_of_none dt e uplink downlink hnone
  rw [h]
  exact ⟨rfl, rfl, hnone, rfl⟩

/-- Witness of C3: traffic for an endpoint the tracker has not seen. -/
theorem addTraffic_unknown_endpoint_unchanged_witness :
    trackerWithOne.GetDeviceInfo otherEndpoint.Address otherEndpoint.Port.val = none ∧
    (trackerWithOne.AddTraffic otherEndpoint 2097152 1048576 = trackerWithOne ∧
      mapKeys (trackerWithOne.AddTraffic otherEndpoint 2097152 1048576).devices =
        mapKeys trackerWithOne.devices ∧
      (trackerWithOne.AddTraffic otherEndpoint 2097152 1048576).GetDeviceInfo
        otherEndpoint.Address otherEndpoint.Port.val = none ∧
      (trackerWithOne.AddTraffic otherEndpoint 2097152 1048576).records =
        trackerWithOne.records) :=
  ⟨by decide, addTraffic_unknown_endpoint_unchanged trackerWithOne otherEndpoint 2097152 1048576
    (by decide)⟩

/-- C5, as stated, fails: with totals (0, 0), uplink values 2^63 - 1 and then 1 leave
`TotalUplink` at -2^63, not at their sum 2^63. -/
theorem addTraffic_sum_overflows :
    trackerWithOne.lookup "203.0.113.5" 51000 =
      some { IP := "203.0.113.5", Port := 51000, Country := "Unknown", City := "Unknown",
             FirstSeen := sampleTime 1, LastSeen := sampleTime 1, TotalUplink := 0,
             TotalDownlink := 0, ConnectionCount := 1, Protocols := [("TCP", true)],
             Tags := [("in1", true)] } ∧
    (((trackerWithOne.AddTraffic sampleEndpoint (2 ^ 63 - 1) 0).AddTraffic sampleEndpoint 1
        0).lookup "203.0.113.5" 51000).map (fun d => d.TotalUplink) = some (-2 ^ 63) ∧
    (-2 ^ 63 : Int) ≠ (2 ^ 63 - 1) + 1 := by
  decide

/-- C5, amended. On a record with totals (0, 0), `AddTraffic` with (u1, d1) and then with
(u2, d2) leaves `TotalUplink` and `TotalDownlink` at the sums u1 + u2 and d1 + d2
wrapped to the `int64` range; each total is the exact sum whenever that sum lies in
[-2^63, 2^63). -/
theorem addTraffic_additive_mod_int64 (dt : DeviceTracker) (e : Destination)
    (d : DeviceInfo) (u1 d1 u2 d2 : Int)
    (hrec : dt.lookup e.Address e.Port.val = some d)
    (hu : d.TotalUplink = 0) (hd : d.TotalDownlink = 0) :
    ∃ r, ((dt.AddTraffic e u1 d1).AddTraffic e u2 d2).lookup e.Address e.Port.val = some r ∧
      r.TotalUplink = wrapInt64 (u1 + u2) ∧ r.TotalDownlink = wrapInt64 (d1 + d2) ∧
      (-2 ^ 63 ≤ u1 + u2 → u1 + u2 < 2 ^ 63 → r.TotalUplink = u1 + u2) ∧
      (-2 ^ 63 ≤ d1 + d2 → d1 + d2 < 2 ^ 63 → r.TotalDownlink = d1 + d2) := by
  simp only [DeviceTracker.lookup, DeviceTracker.GetDeviceInfo, DeviceTracker.deref] at hrec ⊢
  cases hp : mapGet dt.devices (deviceKey e.Address e.Port.val) with
  | none => simp [hp] at hrec
  | some p =>
    simp only [hp, Option.some_bind] at hrec
    have h1 := addTraffic_of_some dt e u1 d1 p hp
    have hp1 : mapGet (dt.AddTraffic e u1 d1).devices (deviceKey e.Address e.Port.val) =
        some p := by rw [h1]; exact hp
    have h2 := addTraffic_of_some (dt.AddTraffic e u1 d1) e u2 d2 p hp1
    rw [h2, h1]
    simp only [hp, Option.some_bind, updateAt_get_same, hrec, Option.map_some', hu, hd,
      zero_add, wrapInt64_add]
    refine ⟨_, rfl, rfl, rfl, ?_, ?_⟩
    · intro ha hb; exact wrapInt64_of_range _ ha hb
    · intro ha hb; exact wrapInt64_of_range _ ha hb

/-- Witness of the amended C5, with an uplink sum beyond the `int64` range. -/
theorem addTraffic_additive_mod_int64_witness :
    ∃ r, ((trackerWithOne.AddTraffic sampleEndpoint 2097152 1048576).AddTraffic sampleEndpoint
        (2 ^ 63 - 1) 5).lookup sampleEndpoint.Address sampleEndpoint.Port.val = some r ∧
      r.TotalUplink = wrapInt64 (2097152 + (2 ^ 63 - 1)) ∧
      r.TotalDownlink = wrapInt64 (1048576 + 5) ∧
      (-2 ^ 63 ≤ (2097152 : Int) + (2 ^ 63 - 1) → (2097152 : Int) + (2 ^ 63 - 1) < 2 ^ 63 →
        r.TotalUplink = 2097152 + (2 ^ 63 - 1)) ∧
      (-2 ^ 63 ≤ (1048576 : Int) + 5 → (1048576 : Int) + 5 < 2 ^ 63 →
        r.TotalDownlink = 1048576 + 5) :=
  addTraffic_additive_mod_int64 trackerWithOne sampleEndpoint
    { IP := "203.0.113.5", Port := 51000, Country := "Unknown", City := "Unknown",
      FirstSeen := sampleTime 1, LastSeen := sampleTime 1, TotalUplink := 0,
      TotalDownlink := 0, ConnectionCount := 1, Protocols := [("TCP", true)],
      Tags := [("in1", true)] }
    2097152 1048576 (2 ^ 63 - 1) 5 (by decide) rfl rfl

theorem foldl_mapSet_eq (m : GoMap Nat) : ∀ (acc : GoMap Nat),
    (mapKeys m).Nodup → (∀ k ∈ mapKeys m, mapGet acc k = none) →
    m.foldl (fun result kv => mapSet result kv.1 kv.2) acc = acc ++ m := by
  induction m with
  | nil => intro acc _ _; simp
  | cons kv m ih =>
    intro acc hnd hdis
    obtain ⟨k, v⟩ := kv
    simp only [mapKeys, List.map_cons, List.nodup_cons] at hnd
    have hk : mapGet acc k = none := hdis k (by simp [mapKeys])
    simp only [List.foldl_cons, mapSet_of_absent _ _ _ hk]
    rw [ih _ hnd.2]
    · simp
    · intro k' hk'
      have hne : k' ≠ k := fun h => hnd.1 (h ▸ hk')
      have h1 := mapGet_mapSet_other acc k k' v hne
      rw [mapSet_of_absent _ _ _ hk] at h1
      rw [h1]
      exact hdis k' (by simp only [mapKeys, List.map_cons, List.mem_cons]; exact Or.inr hk')

theorem getAllDevices_eq (dt : DeviceTracker) (h : dt.WF) : dt.GetAllDevices = dt.devices := by
  unfold DeviceTracker.GetAllDevices
  rw [foldl_mapSet_eq dt.devices [] h.2 (fun _ _ => rfl)]
  simp

theorem devices_call (dt : DeviceTracker) (c : RegistryCall) (k : String) (p : Nat)
    (h : mapGet dt.devices k = some p) : mapGet (dt.call c).devices k = some p := by
  cases c with
  | addConnection now src protocol tag =>
    simp only [DeviceTracker.call]
    cases hs : mapGet dt.devices (deviceKey src.Address src.Port.val) with
    | none =>
      rw [addConnection_of_none _ _ _ _ _ hs]
      have hne : k ≠ deviceKey src.Address src.Port.val := by
        intro hk; rw [hk, hs] at h; cases h
      simpa [mapGet_mapSet_other _ _ _ _ hne] using h
    | some q => rw [addConnection_of_some _ _ _ _ _ _ hs]; exact h
  | addTraffic src u dn =>
    simp only [DeviceTracker.call]
    cases hs : mapGet dt.devices (deviceKey src.Address src.Port.val) with
    | none => rw [addTraffic_of_none _ _ _ _ hs]; exact h
    | some q => rw [addTraffic_of_some _ _ _ _ _ hs]; exact h

/-- The fields of a record that no registry call writes after creation. -/
theorem fixed_fields_call (dt : DeviceTracker) (c : RegistryCall) (p : Nat) (d : DeviceInfo)
    (h : dt.deref p = some d) :
    ∃ r, (dt.call c).deref p = some r ∧ r.IP = d.IP ∧ r.Port = d.Port ∧
      r.Country = d.Country ∧ r.City = d.City ∧ r.FirstSeen = d.FirstSeen := by
  simp only [DeviceTracker.deref] at h ⊢
  have hp : p < dt.records.length := by
    rcases Nat.lt_or_ge p dt.records.length with hlt | hge
    · exact hlt
    · rw [List.getElem?_eq_none hge] at h; cases h
  cases c with
  | addConnection now src protocol tag =>
    simp only [DeviceTracker.call]
    cases hs : mapGet dt.devices (deviceKey src.Address src.Port.val) with
    | none =>
      rw [addConnection_of_none _ _ _ _ _ hs]
      exact ⟨d, by simp [List.getElem?_append_left hp, h], rfl, rfl, rfl, rfl, rfl⟩
    | some q =>
      rw [addConnection_of_some _ _ _ _ _ _ hs]
      by_cases hq : p = q
      · subst hq
        exact ⟨recordConnection protocol tag { d with LastSeen := now },
          by simp [updateAt_get_same, h], rfl, rfl, rfl, rfl, rfl⟩
      · exact ⟨d, by simp [updateAt_get_other _ _ _ _ hq, h], rfl, rfl, rfl, rfl, rfl⟩
  | addTraffic src u dn =>
    simp only [DeviceTracker.call]
    cases hs : mapGet dt.devices (deviceKey src.Address src.Port.val) with
    | none => rw [addTraffic_of_none _ _ _ _ hs]; exact ⟨d, h, rfl, rfl, rfl, rfl, rfl⟩
    | some q =>
      rw [addTraffic_of_some _ _ _ _ _ hs]
      by_cases hq : p = q
      · subst hq
        exact ⟨{ d with
            TotalUplink := wrapInt64 (d.TotalUplink + u)
            TotalDownlink := wrapInt64 (d.TotalDownlink + dn) },
          by simp [updateAt_get_same, h], rfl, rfl, rfl, rfl, rfl⟩
      · exact ⟨d, by simp [updateAt_get_other _ _ _ _ hq, h], rfl, rfl, rfl, rfl, rfl⟩

theorem snapshot_run (calls : List RegistryCall) : ∀ (dt : DeviceTracker) (k : String) (p : Nat)
    (d : DeviceInfo), mapGet dt.devices k = some p → dt.deref p = some d →
    mapGet (dt.run calls).devices k = some p ∧
    ∃ r, (dt.run calls).deref p = some r ∧ r.IP = d.IP ∧ r.Port = d.Port ∧
      r.Country = d.Country ∧ r.City = d.City ∧ r.FirstSeen = d.FirstSeen := by
  induction calls with
  | nil => intro dt k p d h1 h2; exact ⟨h1, d, h2, rfl, rfl, rfl, rfl, rfl⟩
  | cons c calls ih =>
    intro dt k p d h1 h2
    obtain ⟨r1, hr1, e1, e2, e3, e4, e5⟩ := fixed_fields_call dt c p d h2
    obtain ⟨hk, r, hr, f1, f2, f3, f4, f5⟩ := ih (dt.call c) k p r1 (devices_call dt c k p h1) hr1
    exact ⟨hk, r, hr, f1.trans e1, f2.trans e2, f3.trans e3, f4.trans e4, f5.trans e5⟩

/-- C6, as stated, fails: the map returned by `GetAllDevices` holds the registry's own
record pointers, so `LastSeen`, `ConnectionCount`, `TotalUplink`, `TotalDownlink`,
`Protocols` and `Tags` read through it change with a later `AddTraffic` and
`AddConnection` for the endpoint. -/
theorem getAllDevices_records_are_live :
    readThrough trackerWithOne.GetAllDevices trackerWithOne "203.0.113.5:51000" =
      some { IP := "203.0.113.5", Port := 51000, Country := "Unknown", City := "Unknown",
             FirstSeen := sampleTime 1, LastSeen := sampleTime 1, TotalUplink := 0,
             TotalDownlink := 0, ConnectionCount := 1, Protocols := [("TCP", true)],
             Tags := [("in1", true)] } ∧
    readThrough trackerWithOne.GetAllDevices
        (trackerWithOne.run [.addTraffic sampleEndpoint 5 7,
          .addConnection (sampleTime 4) sampleEndpoint "UDP" "in2"]) "203.0.113.5:51000" =
      some { IP := "203.0.113.5", Port := 51000, Country := "Unknown", City := "Unknown",
             FirstSeen := sampleTime 1, LastSeen := sampleTime 4, TotalUplink := 5,
             TotalDownlink := 7, ConnectionCount := 2,
             Protocols := [("TCP", true), ("UDP", true)],
             Tags := [("in1", true), ("in2", true)] } := by
  decide

/-- C6, amended. The map `s` returned by `GetAllDevices` has the registry's keys and
holds the registry's own record pointers. After any later sequence of `AddConnection`
and `AddTraffic` calls, a record read through `s` is the record the registry itself
holds under that key at that time, and only its fields `IP`, `Port`, `Country`,
`City` and `FirstSeen` are sure to have the values they had when `s` was taken. -/
theorem getAllDevices_shares_records (dt : DeviceTracker) (calls : List RegistryCall)
    (key : String) (d : DeviceInfo) (hwf : dt.WF)
    (hread : readThrough dt.GetAllDevices dt key = some d) :
    mapKeys dt.GetAllDevices = mapKeys dt.devices ∧
    ∃ r, readThrough dt.GetAllDevices (dt.run calls) key = some r ∧
      (dt.run calls).recordAt key = some r ∧
      r.IP = d.IP ∧ r.Port = d.Port ∧ r.Country = d.Country ∧ r.City = d.City ∧
      r.FirstSeen = d.FirstSeen := by
  rw [getAllDevices_eq dt hwf] at hread ⊢
  refine ⟨rfl, ?_⟩
  simp only [readThrough, DeviceTracker.recordAt] at hread ⊢
  cases hp : mapGet dt.devices key with
  | none => simp [hp] at hread
  | some p =>
    simp only [hp, Option.some_bind] at hread
    obtain ⟨hk, r, hr, f⟩ := snapshot_run calls dt key p d hp hread
    exact ⟨r, by simpa using hr, by simpa [hk] using hr, f⟩

/-- Witness of the amended C6 on `trackerWithOne` and `sampleCalls`. -/
theorem getAllDevices_shares_records_witness :
    trackerWithOne.WF ∧
    mapKeys trackerWithOne.GetAllDevices = mapKeys trackerWithOne.devices ∧
    ∃ r, readThrough trackerWithOne.GetAllDevices (trackerWithOne.run sampleCalls)
        "203.0.113.5:51000" = some r ∧
      (trackerWithOne.run sampleCalls).recordAt "203.0.113.5:51000" = some r ∧
      r.IP = "203.0.113.5" ∧ r.Port = 51000 ∧ r.Country = "Unknown" ∧ r.City = "Unknown" ∧
      r.FirstSeen = sampleTime 1 :=
  ⟨by decide, getAllDevices_shares_records trackerWithOne sampleCalls "203.0.113.5:51000"
    { IP := "203.0.113.5", Port := 51000, Country := "Unknown", City := "Unknown",
      FirstSeen := sampleTime 1, LastSeen := sampleTime 1, TotalUplink := 0,
      TotalDownlink := 0, ConnectionCount := 1, Protocols := [("TCP", true)],
      Tags := [("in1", true)] } (by decide) (by decide)⟩

/-! ## The router -/

theorem toPort_val (p : Fin 65536) : toPort ((p.val : Nat) : Int) = p := by
  apply Fin.ext
  simp only [toPort]
  have := p.isLt
  omega

theorem fresh_two_connections (dt : DeviceTracker) (src : Destination) (t1 t2 : Time)
    (proto1 proto2 tag : String) (hfresh : dt.devices = []) (hp : proto1 ≠ proto2) :
    ∃ r, ((dt.AddConnection t1 src proto1 tag).AddConnection t2 src proto2 tag).lookup
        src.Address src.Port.val = some r ∧
      r.ConnectionCount = 2 ∧ r.Protocols = [(proto1, true), (proto2, true)] ∧
      r.TotalUplink = 0 ∧ r.TotalDownlink = 0 := by
  have hnone : mapGet dt.devices (deviceKey src.Address src.Port.val) = none := by
    rw [hfresh]; rfl
  have h1 := addConnection_of_none dt t1 src proto1 tag hnone
  have hsome : mapGet (dt.AddConnection t1 src proto1 tag).devices
      (deviceKey src.Address src.Port.val) = some dt.records.length := by
    rw [h1]; exact mapGet_mapSet_same _ _ _
  have h2 := addConnection_of_some _ t2 src proto2 tag _ hsome
  rw [h2]
  simp only [DeviceTracker.lookup, DeviceTracker.GetDeviceInfo, DeviceTracker.deref, hsome,
    Option.some_bind, updateAt_get_same]
  rw [h1]
  simp only [List.getElem?_concat_length, Option.map_some']
  refine ⟨_, rfl, ?_, ?_, rfl, rfl⟩
  · simp only [recordConnection]
    decide
  · simp [recordConnection, mapSet, hp]

/-- C2. The code does not forward a traffic event to `AddTraffic`: with tag `g` bound to a
manager whose tracker is fresh, `TrackTCPConnection(e, g)` followed by
`TrackTraffic(e, g, u, d)` leaves the record of `e` with `ConnectionCount = 2`,
`Protocols = {"TCP", "UDP"}` and both totals at 0, whatever `u` and `d` are. -/
theorem trackTraffic_counts_a_connection (parseAddress : String → String)
    (im : IntegrationManager) (g : String) (p : Nat) (m : DeviceTrackerManager)
    (e : Destination) (u d : Int) (t1 t2 : Time)
    (hbound : im.GetTracker g = some p) (hm : im.managers[p]? = some m)
    (hfresh : m.tracker.devices = []) :
    ∃ m' r,
      ((im.TrackTCPConnection parseAddress t1 e g).TrackTraffic parseAddress t2 e g u
        d).managers[p]? = some m' ∧
      m'.GetDeviceInfo (parseAddress e.Address) e.Port.val = some r ∧
      r.ConnectionCount = 2 ∧ r.Protocols = [("TCP", true), ("UDP", true)] ∧
      r.TotalUplink = 0 ∧ r.TotalDownlink = 0 := by
  have hb2 : (im.TrackTCPConnection parseAddress t1 e g).GetTracker g = some p := by
    simp only [IntegrationManager.TrackTCPConnection, hbound]
    exact hbound
  simp only [IntegrationManager.TrackTraffic, hb2]
  simp only [IntegrationManager.TrackTCPConnection, hbound, updateAt_get_same, hm,
    Option.map_some', DeviceTrackerManager.AddConnection, toPort_val,
    DeviceTrackerManager.GetDeviceInfo]
  obtain ⟨r, hr, hrest⟩ := fresh_two_connections m.tracker
    { Address := parseAddress e.Address, Port := e.Port } t1 t2 "TCP" "UDP" g hfresh
    (by decide)
  exact ⟨_, r, rfl, hr, hrest⟩

/-- Witness of C2 at the scenario of the specification: tag "in1", endpoint
203.0.113.5:51000, uplink 2097152 and downlink 1048576. -/
theorem trackTraffic_counts_a_connection_witness :
    sampleRouter.GetTracker "in1" = some 0 ∧
    ∃ m' r,
      ((sampleRouter.TrackTCPConnection (fun s => s) (sampleTime 1) sampleEndpoint
        "in1").TrackTraffic (fun s => s) (sampleTime 2) sampleEndpoint "in1" 2097152
        1048576).managers[0]? = some m' ∧
      m'.GetDeviceInfo "203.0.113.5" 51000 = some r ∧
      r.ConnectionCount = 2 ∧ r.Protocols = [("TCP", true), ("UDP", true)] ∧
      r.TotalUplink = 0 ∧ r.TotalDownlink = 0 :=
  ⟨by decide, trackTraffic_counts_a_connection (fun s => s) sampleRouter "in1" 0
    { tracker := sampleTracker } sampleEndpoint 2097152 1048576 (sampleTime 1) (sampleTime 2)
    (by decide) (by decide) (by decide)⟩

/-- C4. For a tag without a binding in the router table, `TrackTCPConnection`,
`TrackUDPConnection` and `TrackTraffic` each return (there is no error result) and
leave the router table and every manager, hence every registry, as they were. -/
theorem dispatch_unregistered_tag_unchanged (parseAddress : String → String)
    (im : IntegrationManager) (now : Time) (source : Destination) (tag : String)
    (uplink downlink : Int) (hnone : mapGet im.trackers tag = none) :
    im.TrackTCPConnection parseAddress now source tag = im ∧
    im.TrackUDPConnection parseAddress now source tag = im ∧
    im.TrackTraffic parseAddress now source tag uplink downlink = im := by
  have h : im.GetTracker tag = none := by
    simp only [IntegrationManager.GetTracker, hnone]
  simp only [IntegrationManager.TrackTCPConnection, IntegrationManager.TrackUDPConnection,
    IntegrationManager.TrackTraffic, h, and_self]

/-- Witness of C4: the tag "in2" has no binding in `sampleRouter`. -/
theorem dispatch_unregistered_tag_unchanged_witness :
    mapGet sampleRouter.trackers "in2" = none ∧
    (sampleRouter.TrackTCPConnection (fun s => s) (sampleTime 1) sampleEndpoint "in2" =
        sampleRouter ∧
      sampleRouter.TrackUDPConnection (fun s => s) (sampleTime 1) sampleEndpoint "in2" =
        sampleRouter ∧
      sampleRouter.TrackTraffic (fun s => s) (sampleTime 1) sampleEndpoint "in2" 2097152
        1048576 = sampleRouter) :=
  ⟨by decide, dispatch_unregistered_tag_unchanged (fun s => s) sampleRouter (sampleTime 1)
    sampleEndpoint "in2" 2097152 1048576 (by decide)⟩

/-! ## File names and months -/

theorem padZero_isDigit (w n : Nat) : ∀ c ∈ (padZero w n).data, c.isDigit = true := by
  intro c hc
  simp only [padZero, String.data_append, List.mem_append] at hc
  rcases hc with hc | hc
  · rw [List.mem_replicate] at hc
    rw [hc.2]; decide
  · exact natRepr_isDigit n c hc

theorem padZero_length (w n : Nat) (hw : 0 < w) (hn : n < 10 ^ w) :
    (padZero w n).data.length = w := by
  have h := Nat.repr_length n w hw hn
  have h2 : (toString n).length = (Nat.repr n).length := rfl
  simp only [padZero, String.data_append, List.length_append, List.length_replicate]
  have h3 : (toString n).data.length = (toString n).length := rfl
  omega

theorem map_isDigit_of_all (l : List Char) (h : ∀ c ∈ l, c.isDigit = true) :
    l.map Char.isDigit = List.replicate l.length true := by
  induction l with
  | nil => rfl
  | cons a l ih =>
    simp only [List.map_cons, List.length_cons, List.replicate_succ, List.cons.injEq]
    exact ⟨h a (List.mem_cons_self _ _), ih (fun c hc => h c (List.mem_cons_of_mem _ hc))⟩

theorem formatMonth_shape (t : Time) (hy : t.year < 10000) (hm : t.month < 100) :
    t.formatMonth.data.map Char.isDigit = [true, true, true, true, false, true, true] := by
  simp only [Time.formatMonth, String.data_append, List.map_append]
  rw [map_isDigit_of_all _ (padZero_isDigit 4 t.year), map_isDigit_of_all _ (padZero_isDigit 2 t.month),
    padZero_length 4 t.year (by decide) (by omega), padZero_length 2 t.month (by decide) (by omega)]
  rfl

theorem formatMonth_no_slash (t : Time) : '/' ∉ t.formatMonth.data := by
  intro h
  simp only [Time.formatMonth, String.data_append, List.mem_append] at h
  rcases h with (h | h) | h
  · exact absurd (padZero_isDigit 4 t.year _ h) (by decide)
  · revert h; decide
  · exact absurd (padZero_isDigit 2 t.month _ h) (by decide)

theorem startsWith_take : ∀ (l sub : List Char), startsWith l sub = true →
    l.take sub.length = sub := by
  intro l
  induction l with
  | nil => intro sub h; cases sub with
    | nil => rfl
    | cons x sub => simp [startsWith] at h
  | cons c l ih =>
    intro sub h
    cases sub with
    | nil => rfl
    | cons x sub =>
      simp only [startsWith, Bool.and_eq_true, beq_iff_eq] at h
      simp only [List.length_cons, List.take_succ_cons, List.cons.injEq]
      exact ⟨h.1, ih sub h.2⟩

theorem occursIn_window : ∀ (l sub : List Char), occursIn l sub = true →
    ∃ i, i ≤ l.length ∧ (l.drop i).take sub.length = sub := by
  intro l
  induction l with
  | nil => intro sub h; exact ⟨0, Nat.le_refl _, startsWith_take _ _ h⟩
  | cons c l ih =>
    intro sub h
    simp only [occursIn, Bool.or_eq_true] at h
    rcases h with h | h
    · exact ⟨0, Nat.zero_le _, startsWith_take _ _ h⟩
    · obtain ⟨i, hi, hw⟩ := ih sub h
      exact ⟨i + 1, by simpa using hi, by simpa using hw⟩

/-- The name of a monthly file contains the text of no month other than its own. -/
theorem fileName_contains_month (t t' : Time) (hy : t.year < 10000) (hm : t.month < 100)
    (hy' : t'.year < 10000) (hm' : t'.month < 100)
    (h : stringsContains ("devices_" ++ t.formatMonth ++ ".txt") t'.formatMonth = true) :
    t'.formatMonth = t.formatMonth := by
  have hs := formatMonth_shape t hy hm
  have hs' := formatMonth_shape t' hy' hm'
  have hl : t.formatMonth.data.length = 7 := by
    have := congrArg List.length hs; simpa using this
  have hl' : t'.formatMonth.data.length = 7 := by
    have := congrArg List.length hs'; simpa using this
  obtain ⟨i, hi, hw⟩ := occursIn_window _ _ h
  simp only [String.data_append, hl'] at hw
  have hc := congrArg (List.map Char.isDigit) hw
  simp only [List.map_take, List.map_drop, List.map_append, hs, hs'] at hc
  simp only [String.data_append, List.length_append, hl] at hi
  have hi' : i ≤ 19 := hi
  have h8 : i = 8 := by
    interval_cases i <;> first | rfl | (exfalso; revert hc; decide)
  subst h8
  apply String.ext_iff.2
  rw [← hw]
  have : ("devices_" : String).data.length = 8 := rfl
  rw [List.append_assoc, List.drop_left' this, List.take_left' hl]

theorem fileName_no_slash (t : Time) :
    ∀ c ∈ ("devices_" ++ t.formatMonth ++ ".txt").data, (c != '/') = true := by
  intro c hc
  simp only [String.data_append, List.mem_append] at hc
  have hne : c ≠ '/' := by
    rcases hc with (hc | hc) | hc
    · intro h; subst h; revert hc; decide
    · intro h; subst h; exact formatMonth_no_slash t hc
    · intro h; subst h; revert hc; decide
  simpa using hne

theorem takeWhile_append_stop (l r : List Char) (p : Char → Bool) (x : Char)
    (hl : ∀ c ∈ l, p c = true) (hx : p x = false) : (l ++ x :: r).takeWhile p = l := by
  induction l with
  | nil => simp [List.takeWhile, hx]
  | cons a l ih =>
    rw [List.cons_append, List.takeWhile_cons, hl a (List.mem_cons_self _ _), if_pos rfl,
      ih (fun c hc => hl c (List.mem_cons_of_mem _ hc))]

theorem takeWhile_all (l : List Char) (p : Char → Bool) (hl : ∀ c ∈ l, p c = true) :
    l.takeWhile p = l := by
  induction l with
  | nil => rfl
  | cons a l ih =>
    rw [List.takeWhile_cons, hl a (List.mem_cons_self _ _), if_pos rfl,
      ih (fun c hc => hl c (List.mem_cons_of_mem _ hc))]

theorem dropWhile_slash (l : List Char) (a : Char) (h : (a == '/') = false) :
    (a :: l).dropWhile (fun c => c == '/') = a :: l := by
  rw [List.dropWhile_cons, h]
  rfl

theorem splitPath_ne_nil (l : List Char) : splitPath l ≠ [] := by
  induction l with
  | nil => simp [splitPath]
  | cons c cs ih =>
    unfold splitPath
    split
    · simp
    · split <;> simp

theorem splitPath_append (a b : List Char) :
    splitPath (a ++ '/' :: b) = splitPath a ++ splitPath b := by
  induction a with
  | nil => simp [splitPath]
  | cons c cs ih =>
    by_cases hc : c = '/'
    · simp [splitPath, hc, ih]
    · simp only [List.cons_append, splitPath, hc, if_false, List.append_eq]
      rw [ih]
      cases hs : splitPath cs with
      | nil => exact absurd hs (splitPath_ne_nil cs)
      | cons e es => simp

theorem splitPath_single (name : List Char) (h : ∀ c ∈ name, (c != '/') = true) :
    splitPath name = [name] := by
  induction name with
  | nil => rfl
  | cons c cs ih =>
    have hc : c ≠ '/' := by simpa using h c (List.mem_cons_self _ _)
    simp only [splitPath, hc, if_false, ih (fun x hx => h x (List.mem_cons_of_mem _ hx))]

theorem joinElems_concat (es : List (List Char)) (name : List Char) :
    joinElems (es ++ [name]) = name ∨ ∃ pre, joinElems (es ++ [name]) = pre ++ '/' :: name := by
  induction es with
  | nil => exact Or.inl rfl
  | cons e es ih =>
    right
    cases hes : es ++ [name] with
    | nil => simp at hes
    | cons x xs =>
      rw [hes] at ih
      simp only [List.cons_append, hes, joinElems]
      rcases ih with ih | ⟨pre, ih⟩
      · exact ⟨e, by rw [ih]⟩
      · exact ⟨e ++ '/' :: pre, by rw [ih]; simp⟩

/-- The cleaned path of a directory and a file name ends in the file name, which follows
a separator or is the whole path. -/
theorem filepathJoin_last (dir name : String) (hne : name.data ≠ [])
    (hs : ∀ c ∈ name.data, (c != '/') = true)
    (hdot : name.data ≠ ['.']) (hdotdot : name.data ≠ ['.', '.']) :
    (filepathJoin dir name).data = name.data ∨
      ∃ pre, (filepathJoin dir name).data = pre ++ '/' :: name.data := by
  have hstep : ∀ rooted stack, cleanStep rooted stack name.data = name.data :: stack := by
    intro rooted stack
    simp [cleanStep, hne, hdot, hdotdot]
  have hclean : ∀ (p : String) (front : List (List Char)), p ≠ "" →
      splitPath p.data = front ++ [name.data] →
      (filepathClean p).data = name.data ∨
        ∃ pre, (filepathClean p).data = pre ++ '/' :: name.data := by
    intro p front hp hsplit
    simp only [filepathClean, hp, if_false, hsplit, List.foldl_append, List.foldl_cons,
      List.foldl_nil, hstep, List.reverse_cons]
    have hj := joinElems_concat
      (List.foldl (cleanStep (p.data.head? == some '/')) [] front).reverse name.data
    have hout : (if (p.data.head? == some '/') = true then ['/'] else []) ++
        joinElems ((List.foldl (cleanStep (p.data.head? == some '/')) [] front).reverse ++
          [name.data]) ≠ [] := by
      rcases hj with hj | ⟨pre, hj⟩
      · rw [hj]; simp [hne]
      · rw [hj]; simp
    rw [if_neg hout]
    rcases hj with hj | ⟨pre, hj⟩
    · rw [hj]
      by_cases hr : (p.data.head? == some '/') = true
      · right; exact ⟨[], by simp [hr]⟩
      · left; simp [hr]
    · rw [hj]
      right
      exact ⟨(if (p.data.head? == some '/') = true then ['/'] else []) ++ pre, by simp⟩
  unfold filepathJoin
  by_cases hd : dir = ""
  · have hn : name ≠ "" := fun h => hne (by rw [h])
    simp only [hd, ne_eq, not_true_eq_false, if_false, hn, not_false_eq_true, if_true]
    exact hclean name [] hn (by simpa using splitPath_single _ hs)
  · simp only [hd, ne_eq, not_false_eq_true, if_true]
    refine hclean _ (splitPath dir.data) ?_ ?_
    · intro h
      have := congrArg String.data h
      simp [String.data_append] at this
    · simp only [String.data_append, List.append_assoc]
      have : ("/" : String).data ++ name.data = '/' :: name.data := rfl
      rw [this, splitPath_append, splitPath_single _ hs]

/-- The last element of a path built by `filepathJoin` from a name without separators is
that name. -/
theorem filepathBase_join (dir name : String) (hne : name.data ≠ [])
    (hs : ∀ c ∈ name.data, (c != '/') = true)
    (hdot : name.data ≠ ['.']) (hdotdot : name.data ≠ ['.', '.']) :
    filepathBase (filepathJoin dir name) = name := by
  have hpath := filepathJoin_last dir name hne hs hdot hdotdot
  have hrev : ∀ c ∈ name.data.reverse, (c != '/') = true :=
    fun c hc => hs c (List.mem_reverse.1 hc)
  have hnonempty : filepathJoin dir name ≠ "" := by
    intro h
    have h2 := congrArg String.data h
    rcases hpath with hp | ⟨pre, hp⟩
    · rw [hp] at h2; exact hne h2
    · rw [hp] at h2; simp at h2
  obtain ⟨a, l, hal⟩ : ∃ a l, name.data.reverse = a :: l := by
    cases hr : name.data.reverse with
    | nil => exact absurd (List.reverse_eq_nil_iff.1 hr) hne
    | cons a l => exact ⟨a, l, rfl⟩
  have ha : (a == '/') = false := by
    have := hrev a (by rw [hal]; exact List.mem_cons_self _ _)
    simpa using this
  unfold filepathBase
  rw [if_neg hnonempty]
  have key : ((filepathJoin dir name).data.reverse.dropWhile (fun c => c == '/')).takeWhile
      (fun c => c != '/') = name.data.reverse := by
    rcases hpath with hp | ⟨pre, hp⟩
    · rw [hp, hal, dropWhile_slash _ _ ha, ← hal]
      exact takeWhile_all _ _ hrev
    · rw [hp]
      simp only [List.reverse_append, List.reverse_cons, List.append_assoc, List.singleton_append]
      rw [hal, List.cons_append, dropWhile_slash _ _ ha, ← List.cons_append, ← hal]
      exact takeWhile_append_stop _ _ _ _ hrev (by decide)
  simp only [key, List.reverse_reverse]
  rw [if_neg hne]

theorem filepathBase_monthly (dir : String) (t : Time) :
    filepathBase (monthlyFilePath dir t) = "devices_" ++ t.formatMonth ++ ".txt" := by
  apply filepathBase_join _ _ _ (fileName_no_slash t) <;> simp [String.data_append]

theorem monthlyFilePath_ne_empty (dir : String) (t : Time) : monthlyFilePath dir t ≠ "" := by
  intro h
  have hb := filepathBase_monthly dir t
  rw [h] at hb
  have h2 := congrArg String.data hb
  simp [filepathBase, String.data_append] at h2

theorem monthlyFilePath_inj (dir : String) (t t' : Time)
    (h : monthlyFilePath dir t = monthlyFilePath dir t')
    (hy : t.year < 10000) (hm : t.month < 100) (hy' : t'.year < 10000) (hm' : t'.month < 100) :
    t.formatMonth = t'.formatMonth := by
  have hb := congrArg filepathBase h
  rw [filepathBase_monthly, filepathBase_monthly] at hb
  have hd := congrArg String.data hb
  simp only [String.data_append] at hd
  have hl : t.formatMonth.data.length = 7 := by
    have := congrArg List.length (formatMonth_shape t hy hm); simpa using this
  have hl' : t'.formatMonth.data.length = 7 := by
    have := congrArg List.length (formatMonth_shape t' hy' hm'); simpa using this
  rw [List.append_assoc, List.append_assoc] at hd
  have h1 := List.append_cancel_left hd
  exact String.ext_iff.2 (List.append_inj h1 (hl.trans hl'.symm)).1

/-- A tick at a time in another month finds that the month has changed. -/
theorem rotation_detected (dir : String) (t now : Time)
    (hy : t.year < 10000) (hm : t.month < 100) (hy' : now.year < 10000) (hm' : now.month < 100)
    (hne : now.formatMonth ≠ t.formatMonth) :
    stringsContains (filepathBase (monthlyFilePath dir t)) now.formatMonth = false := by
  rw [filepathBase_monthly]
  cases hc : stringsContains ("devices_" ++ t.formatMonth ++ ".txt") now.formatMonth with
  | false => rfl
  | true => exact absurd (fileName_contains_month t now hy hm hy' hm' hc) hne

/-! ## The persistence engine -/

theorem writeLines_ok (env : Env) (filePath : String) (lines : List String) :
    ∀ (content : String), (writeLines env filePath lines content).2 = true →
      (writeLines env filePath lines content).1 = content ++ concatLines lines := by
  induction lines with
  | nil => intro content _; simp [writeLines, concatLines]
  | cons line lines ih =>
    intro content h
    by_cases hw : env.writeOk filePath line = true
    · simp only [writeLines, hw, if_true] at h ⊢
      rw [ih _ h, concatLines, String.append_assoc]
    · simp [writeLines, hw] at h

theorem writeLines_status (env : Env) (filePath : String) (lines : List String) :
    ∀ (c1 c2 : String), (writeLines env filePath lines c1).2 =
      (writeLines env filePath lines c2).2 := by
  induction lines with
  | nil => intro c1 c2; rfl
  | cons line lines ih =>
    intro c1 c2
    by_cases hw : env.writeOk filePath line = true
    · simp only [writeLines, hw, if_true]; exact ih _ _
    · simp [writeLines, hw]

theorem saveToFile_status (env : Env) (dt : DeviceTracker) (d1 d2 : Disk) (filePath : String) :
    (dt.saveToFile env d1 filePath).2 = (dt.saveToFile env d2 filePath).2 := by
  unfold DeviceTracker.saveToFile
  by_cases ho : env.openOk filePath = true
  · simp only [ho, if_true]
    rw [writeLines_status env filePath _ ((mapGet d1 filePath).getD "")
      ((mapGet d2 filePath).getD "")]
  · simp [ho]

/-- A flush that returns no error has put the lines of all collected records after the
previous content of the file. -/
theorem saveToFile_ok (env : Env) (dt : DeviceTracker) (disk : Disk) (filePath : String)
    (h : (dt.saveToFile env disk filePath).2 = none) :
    (dt.saveToFile env disk filePath).1 = mapSet disk filePath
      ((mapGet disk filePath).getD "" ++ concatLines ((dt.collect env).map (formatLine env))) := by
  unfold DeviceTracker.saveToFile at h ⊢
  by_cases ho : env.openOk filePath = true
  · simp only [ho, if_true] at h ⊢
    by_cases hw : (writeLines env filePath ((dt.collect env).map (formatLine env))
        ((mapGet disk filePath).getD "")).2 = true
    · rw [writeLines_ok _ _ _ _ hw]
    · simp [hw] at h
  · simp [ho] at h

theorem collect_pointwise (dt : DeviceTracker) (l : GoMap Nat)
    (h : ∀ kp ∈ l, kp.2 < dt.records.length) :
    List.Forall₂ (fun kp d => dt.deref kp.2 = some d)
      l (l.filterMap (fun kp => dt.deref kp.2)) := by
  induction l with
  | nil => exact List.Forall₂.nil
  | cons kp l ih =>
    have hlt := h kp (List.mem_cons_self _ _)
    have hd : dt.deref kp.2 = some (dt.records[kp.2]) := by
      simp [DeviceTracker.deref, List.getElem?_eq_getElem hlt]
    rw [List.filterMap_cons, hd]
    exact List.Forall₂.cons hd (ih (fun x hx => h x (List.mem_cons_of_mem _ hx)))

theorem collect_lines (env : Env) (dt : DeviceTracker) (hwf : dt.WF) :
    List.Forall₂ (fun kp line => ∃ d, dt.deref kp.2 = some d ∧ line = formatLine env d)
      (env.order dt.devices) ((dt.collect env).map (formatLine env)) := by
  have h := collect_pointwise dt (env.order dt.devices)
    (fun kp hkp => hwf.1 kp ((env.order_perm dt.devices).mem_iff.1 hkp))
  rw [List.forall₂_map_right_iff]
  exact List.Forall₂.imp (fun _ _ hd => ⟨_, hd, rfl⟩) h

theorem saveToFile_currentFile (env : Env) (dt : DeviceTracker) (disk : Disk)
    (filePath target : String) :
    ({ dt with currentFile := target } : DeviceTracker).saveToFile env disk filePath =
      dt.saveToFile env disk filePath := rfl

theorem concatLines_length_pos (env : Env) (d : DeviceInfo) (ds : List DeviceInfo) :
    0 < (concatLines ((d :: ds).map (formatLine env))).length := by
  simp only [List.map_cons, concatLines, formatLine, String.length_append]
  have : ("\n" : String).length = 1 := rfl
  omega

theorem collect_ne_nil (env : Env) (dt : DeviceTracker) (hwf : dt.WF) (hne : dt.devices ≠ []) :
    ∃ d ds, dt.collect env = d :: ds := by
  have hl := (collect_lines env dt hwf).length_eq
  rw [(env.order_perm dt.devices).length_eq, List.length_map] at hl
  cases hc : dt.collect env with
  | nil =>
    rw [hc] at hl
    exact absurd (List.length_eq_zero.1 hl) hne
  | cons d ds => exact ⟨d, ds, rfl⟩

set_option maxRecDepth 100000 in
/-- C9, as stated, fails: on a tracker with one record a second `Close` appends the line of
the record once more, so the file after two calls differs from the file after one. -/
theorem close_twice_appends_twice :
    mapGet (trackerWithOne.Close okEnv sampleDisk).2.1 "logs/devices_2024-01.txt" =
      some ("Device Tracker - 2024-01\n" ++
        "203.0.113.5     51000    Unknown      Unknown         2024-01-15 10:30:01  2024-01-15 10:30:01  0.00         0.00         1        TCP        in1            \n") ∧
    mapGet ((trackerWithOne.Close okEnv sampleDisk).1.Close okEnv
        (trackerWithOne.Close okEnv sampleDisk).2.1).2.1 "logs/devices_2024-01.txt" =
      some ("Device Tracker - 2024-01\n" ++
        "203.0.113.5     51000    Unknown      Unknown         2024-01-15 10:30:01  2024-01-15 10:30:01  0.00         0.00         1        TCP        in1            \n" ++
        "203.0.113.5     51000    Unknown      Unknown         2024-01-15 10:30:01  2024-01-15 10:30:01  0.00         0.00         1        TCP        in1            \n") ∧
    mapGet ((trackerWithOne.Close okEnv sampleDisk).1.Close okEnv
        (trackerWithOne.Close okEnv sampleDisk).2.1).2.1 "logs/devices_2024-01.txt" ≠
      mapGet (trackerWithOne.Close okEnv sampleDisk).2.1 "logs/devices_2024-01.txt" := by
  decide

theorem startsWith_append (sub t : List Char) : startsWith (sub ++ t) sub = true := by
  induction sub with
  | nil => cases t <;> rfl
  | cons x sub ih => simp [startsWith, ih]

theorem occursIn_append (s sub t : List Char) : occursIn (s ++ (sub ++ t)) sub = true := by
  induction s with
  | nil =>
    cases h : sub ++ t with
    | nil =>
      have : sub = [] := (List.append_eq_nil.1 h).1
      subst this; rfl
    | cons c l =>
      simp only [List.nil_append, occursIn, Bool.or_eq_true]
      exact Or.inl (h ▸ startsWith_append sub t)
  | cons c s ih =>
    simp only [List.cons_append, occursIn, Bool.or_eq_true]
    exact Or.inr ih

/-- A tick at a time in the month of the current file finds the month in its name. -/
theorem rotation_not_detected (dir : String) (t : Time) :
    stringsContains (filepathBase (monthlyFilePath dir t)) t.formatMonth = true := by
  rw [filepathBase_monthly]
  simp only [stringsContains, String.data_append, List.append_assoc]
  exact occursIn_append _ _ _

/-- What `initializeMonthlyFile` does when the file of the month of `now` is not the
current file and cannot be created. -/
theorem initializeMonthlyFile_create_fails (env : Env) (dt : DeviceTracker) (disk : Disk)
    (now : Time) (hne : dt.currentFile ≠ monthlyFilePath dt.outputDir now)
    (hcur : dt.currentFile ≠ "")
    (hfail : env.createOk (monthlyFilePath dt.outputDir now) = false) :
    dt.initializeMonthlyFile env disk now =
      ({ dt with currentFile := monthlyFilePath dt.outputDir now },
        (dt.saveToFile env disk dt.currentFile).1, some "failed to create monthly file") := by
  unfold monthlyFilePath at hne hfail ⊢
  simp only [DeviceTracker.initializeMonthlyFile, hne, if_false, hfail, hcur, ne_eq,
    not_false_eq_true, if_true, Bool.false_eq_true]

/-- What `initializeMonthlyFile` does when the file of the month of `now` is not the
current file, is created and receives its header. -/
theorem initializeMonthlyFile_rotates (env : Env) (dt : DeviceTracker) (disk : Disk)
    (now : Time) (hne : dt.currentFile ≠ monthlyFilePath dt.outputDir now)
    (hcur : dt.currentFile ≠ "")
    (hcreate : env.createOk (monthlyFilePath dt.outputDir now) = true)
    (hheader : env.writeOk (monthlyFilePath dt.outputDir now)
      (fileHeader now.formatMonth now) = true) :
    dt.initializeMonthlyFile env disk now =
      ({ dt with currentFile := monthlyFilePath dt.outputDir now },
        mapSet (mapSet (dt.saveToFile env disk dt.currentFile).1
          (monthlyFilePath dt.outputDir now) "") (monthlyFilePath dt.outputDir now)
          (fileHeader now.formatMonth now), none) := by
  unfold monthlyFilePath at hne hcreate hheader ⊢
  simp only [DeviceTracker.initializeMonthlyFile, hne, if_false, hcreate, hheader, hcur, ne_eq,
    not_false_eq_true, if_true]

set_option maxRecDepth 100000 in
/-- C7, as stated, fails: with the January file as current target and no file creation
possible, `initializeMonthlyFile` in February returns an error and leaves `currentFile`
at the February path, not at the January path. -/
theorem failed_rotation_moves_target :
    trackerWithOne.currentFile = "logs/devices_2024-01.txt" ∧
    (trackerWithOne.initializeMonthlyFile noCreateEnv sampleDisk februaryTime).2.2 =
      some "failed to create monthly file" ∧
    (trackerWithOne.initializeMonthlyFile noCreateEnv sampleDisk februaryTime).1.currentFile =
      "logs/devices_2024-02.txt" ∧
    (trackerWithOne.initializeMonthlyFile noCreateEnv sampleDisk februaryTime).1.currentFile ≠
      trackerWithOne.currentFile := by
  decide

/-- Whenever `initializeMonthlyFile` does not find the file of the month already current,
it leaves `currentFile` at the path of that file, whatever the outcome. -/
theorem initializeMonthlyFile_target (env : Env) (dt : DeviceTracker) (disk : Disk)
    (now : Time) (hne : dt.currentFile ≠ monthlyFilePath dt.outputDir now) :
    (dt.initializeMonthlyFile env disk now).1 =
      { dt with currentFile := monthlyFilePath dt.outputDir now } := by
  unfold monthlyFilePath at hne ⊢
  simp only [DeviceTracker.initializeMonthlyFile, hne, if_false]
  split
  · split <;> rfl
  · rfl

/-- A tracker returned by `NewDeviceTracker` is well formed, has no record, and has the
file of the current month as its target. -/
theorem newDeviceTracker_active (env : Env) (disk disk1 : Disk) (now : Time)
    (outputDir : String) (dt : DeviceTracker)
    (h : NewDeviceTracker env disk now outputDir = .ok (dt, disk1)) :
    dt.WF ∧ dt.records = [] ∧ dt.devices = [] ∧
      dt.currentFile = monthlyFilePath dt.outputDir now := by
  simp only [NewDeviceTracker] at h
  generalize (if outputDir = "" then "./device_logs" else outputDir) = dir at h
  by_cases hmk : env.mkdirOk dir = true
  · simp only [hmk, if_true] at h
    have ht := initializeMonthlyFile_target env
      { records := [], devices := [], outputDir := dir, currentFile := "" } disk now
      (fun h => monthlyFilePath_ne_empty _ now h.symm)
    revert h ht
    cases DeviceTracker.initializeMonthlyFile env
      { records := [], devices := [], outputDir := dir, currentFile := "" } disk now with
    | mk dt1 rest =>
      cases rest with
      | mk disk2 err =>
        cases err with
        | none =>
          intro h ht
          simp only [Except.ok.injEq, Prod.mk.injEq] at h
          obtain ⟨rfl, -⟩ := h
          simp only at ht
          subst ht
          exact ⟨⟨by simp, by simp [mapKeys]⟩, rfl, rfl, rfl⟩
        | some e => intro h; simp at h
  · simp [hmk] at h

/-! ## The lines of a flush -/

theorem noBreak_append (a b : String) (ha : '\n' ∉ a.data) (hb : '\n' ∉ b.data) :
    '\n' ∉ (a ++ b).data := by
  simp only [String.data_append, List.mem_append, not_or]
  exact ⟨ha, hb⟩

theorem noBreak_of_digits (s : String) (h : ∀ c ∈ s.data, c.isDigit = true) :
    '\n' ∉ s.data :=
  fun hc => absurd (h _ hc) (by decide)

theorem noBreak_padRight (w : Nat) (s : String) (h : '\n' ∉ s.data) :
    '\n' ∉ (padRight w s).data := by
  apply noBreak_append _ _ h
  intro hc
  have := (List.mem_replicate.1 hc).2
  revert this; decide

theorem noBreak_padZero (w n : Nat) : '\n' ∉ (padZero w n).data :=
  noBreak_of_digits _ (padZero_isDigit w n)

theorem noBreak_natRepr (n : Nat) : '\n' ∉ (toString n).data :=
  noBreak_of_digits _ (natRepr_isDigit n)

theorem noBreak_intRepr (x : Int) : '\n' ∉ (toString x).data := by
  cases x with
  | ofNat n => exact noBreak_natRepr n
  | negSucc n =>
    show '\n' ∉ ("-" ++ toString (n + 1)).data
    exact noBreak_append _ _ (by decide) (noBreak_natRepr _)

theorem noBreak_formatStamp (t : Time) : '\n' ∉ t.formatStamp.data := by
  have hdash : '\n' ∉ ("-" : String).data := by decide
  have hsp : '\n' ∉ (" " : String).data := by decide
  have hcolon : '\n' ∉ (":" : String).data := by decide
  simp only [Time.formatStamp, String.data_append, List.mem_append, not_or, noBreak_padZero,
    hdash, hsp, hcolon, not_false_eq_true, and_self]

theorem noBreak_formatMB (x : Int) : '\n' ∉ (formatMB x).data := by
  unfold formatMB
  refine noBreak_append _ _ (noBreak_append _ _ (noBreak_append _ _ ?_ (noBreak_natRepr _))
    (by decide)) (noBreak_padZero _ _)
  split <;> decide

theorem noBreak_joinKeys_aux (l : GoMap Bool) (h : ∀ kv ∈ l, '\n' ∉ kv.1.data) :
    ∀ acc : String, '\n' ∉ acc.data →
      '\n' ∉ (l.foldl (fun acc kv => (if acc ≠ "" then acc ++ "," else acc) ++ kv.1) acc).data := by
  induction l with
  | nil => intro acc ha; exact ha
  | cons kv l ih =>
    intro acc ha
    simp only [List.foldl_cons]
    apply ih (fun x hx => h x (List.mem_cons_of_mem _ hx))
    apply noBreak_append _ _ _ (h kv (List.mem_cons_self _ _))
    split
    · exact noBreak_append _ _ ha (by decide)
    · exact ha

theorem noBreak_joinKeys (env : Env) (m : GoMap Bool) (h : ∀ kv ∈ m, '\n' ∉ kv.1.data) :
    '\n' ∉ (joinKeys env m).data :=
  noBreak_joinKeys_aux _ (fun kv hkv => h kv ((env.order_perm m).mem_iff.1 hkv)) "" (by decide)

/-- The line of a device ends in a line break, and holds no other line break when the
text fields of the record hold none. -/
theorem formatLine_shape (env : Env) (d : DeviceInfo) :
    ∃ body, formatLine env d = body ++ "\n" ∧ (d.plain → '\n' ∉ body.data) := by
  refine ⟨_, rfl, ?_⟩
  rintro ⟨h1, h2, h3, h4, h5⟩
  have hsp : '\n' ∉ (" " : String).data := by decide
  have f1 := noBreak_padRight 15 d.IP h1
  have f2 := noBreak_padRight 8 (toString d.Port) (noBreak_intRepr _)
  have f3 := noBreak_padRight 12 d.Country h2
  have f4 := noBreak_padRight 15 d.City h3
  have f5 := noBreak_padRight 20 d.FirstSeen.formatStamp (noBreak_formatStamp _)
  have f6 := noBreak_padRight 20 d.LastSeen.formatStamp (noBreak_formatStamp _)
  have f7 := noBreak_padRight 12 (formatMB d.TotalUplink) (noBreak_formatMB _)
  have f8 := noBreak_padRight 12 (formatMB d.TotalDownlink) (noBreak_formatMB _)
  have f9 := noBreak_padRight 8 (toString d.ConnectionCount) (noBreak_intRepr _)
  have f10 := noBreak_padRight 10 (joinKeys env d.Protocols) (noBreak_joinKeys env _ h4)
  have f11 := noBreak_padRight 15 (joinKeys env d.Tags) (noBreak_joinKeys env _ h5)
  simp only [String.data_append, List.mem_append, not_or, f1, f2, f3, f4, f5, f6, f7, f8, f9,
    f10, f11, hsp, not_false_eq_true, and_self]

/-- The lines of a flush are one for each entry of the device map, in the order the map
is visited: the line written for the record the entry points to. -/
theorem collect_entries (env : Env) (dt : DeviceTracker) (hwf : dt.WF) :
    List.Forall₂ (fun kp line => ∃ d body, dt.deref kp.2 = some d ∧ line = formatLine env d ∧
        line = body ++ "\n" ∧ (d.plain → '\n' ∉ body.data))
      (env.order dt.devices) ((dt.collect env).map (formatLine env)) := by
  refine List.Forall₂.imp ?_ (collect_lines env dt hwf)
  rintro kp line ⟨d, hd, rfl⟩
  obtain ⟨body, hb, hp⟩ := formatLine_shape env d
  exact ⟨d, body, hd, rfl, hb, hp⟩

/-- C9, amended. `Close` makes one flush to the current target and leaves the tracker,
`currentFile` included, as it was. A second `Close` therefore flushes again: when both
calls succeed the file holds its previous content followed by the lines of the
registry twice, each time in the map order of that call, which is not the content
after one call as soon as the registry has a record. -/
theorem close_flushes_each_time (env1 env2 : Env) (dt : DeviceTracker) (disk : Disk)
    (hwf : dt.WF) (hcur : dt.currentFile ≠ "")
    (hok1 : (dt.Close env1 disk).2.2 = none)
    (hok2 : ((dt.Close env1 disk).1.Close env2 (dt.Close env1 disk).2.1).2.2 = none) :
    (dt.Close env1 disk).1 = dt ∧
    mapGet (dt.Close env1 disk).2.1 dt.currentFile =
      some ((mapGet disk dt.currentFile).getD "" ++
        concatLines ((dt.collect env1).map (formatLine env1))) ∧
    mapGet ((dt.Close env1 disk).1.Close env2 (dt.Close env1 disk).2.1).2.1 dt.currentFile =
      some ((mapGet disk dt.currentFile).getD "" ++
        concatLines ((dt.collect env1).map (formatLine env1)) ++
        concatLines ((dt.collect env2).map (formatLine env2))) ∧
    (dt.devices ≠ [] →
      mapGet ((dt.Close env1 disk).1.Close env2 (dt.Close env1 disk).2.1).2.1 dt.currentFile ≠
        mapGet (dt.Close env1 disk).2.1 dt.currentFile) := by
  have hc : ∀ (env : Env) (d : Disk), dt.Close env d =
      (dt, (dt.saveToFile env d dt.currentFile).1, (dt.saveToFile env d dt.currentFile).2) := by
    intro env d; simp only [DeviceTracker.Close, hcur, ne_eq, not_false_eq_true, if_true]
  have hs1 : (dt.saveToFile env1 disk dt.currentFile).2 = none := by
    rw [hc] at hok1; exact hok1
  have hs2 : (dt.saveToFile env2 (dt.saveToFile env1 disk dt.currentFile).1
      dt.currentFile).2 = none := by
    rw [hc env1 disk] at hok2
    simp only at hok2
    rw [hc env2] at hok2
    exact hok2
  have h1 : mapGet (dt.saveToFile env1 disk dt.currentFile).1 dt.currentFile =
      some ((mapGet disk dt.currentFile).getD "" ++
        concatLines ((dt.collect env1).map (formatLine env1))) := by
    rw [saveToFile_ok env1 dt disk _ hs1, mapGet_mapSet_same]
  have h2 : mapGet (dt.saveToFile env2 (dt.saveToFile env1 disk dt.currentFile).1
      dt.currentFile).1 dt.currentFile =
      some ((mapGet disk dt.currentFile).getD "" ++
        concatLines ((dt.collect env1).map (formatLine env1)) ++
        concatLines ((dt.collect env2).map (formatLine env2))) := by
    rw [saveToFile_ok env2 dt _ _ hs2, mapGet_mapSet_same, h1]
    rfl
  refine ⟨by rw [hc], ?_⟩
  simp only [hc]
  refine ⟨h1, h2, ?_⟩
  intro hne
  rw [h1, h2]
  obtain ⟨d, ds, hd⟩ := collect_ne_nil env2 dt hwf hne
  have hpos := concatLines_length_pos env2 d ds
  rw [← hd] at hpos
  intro heq
  have hlen := congrArg String.length (Option.some.inj heq)
  simp only [String.length_append] at hlen
  omega

set_option maxRecDepth 100000 in
/-- Witness of the amended C9 on `loadedTracker`: a first `Close` with the map visited in
order and a second one with the map visited in reverse, the four lines written out. -/
theorem close_flushes_each_time_witness :
    loadedTracker.WF ∧ loadedTracker.currentFile = "device_logs/devices_2024-01.txt" ∧
    (loadedTracker.Close okEnv defaultDisk).2.2 = none ∧
    ((loadedTracker.Close okEnv defaultDisk).1.Close reverseEnv
      (loadedTracker.Close okEnv defaultDisk).2.1).2.2 = none ∧
    (loadedTracker.Close okEnv defaultDisk).1 = loadedTracker ∧
    mapGet ((loadedTracker.Close okEnv defaultDisk).1.Close reverseEnv
        (loadedTracker.Close okEnv defaultDisk).2.1).2.1 loadedTracker.currentFile =
      some ((mapGet defaultDisk loadedTracker.currentFile).getD "" ++
        concatLines ((loadedTracker.collect okEnv).map (formatLine okEnv)) ++
        concatLines ((loadedTracker.collect reverseEnv).map (formatLine reverseEnv))) ∧
    (loadedTracker.collect okEnv).map (formatLine okEnv) ++
        (loadedTracker.collect reverseEnv).map (formatLine reverseEnv) =
      ["203.0.113.5     51000    Unknown      Unknown         2024-01-15 10:30:01  2024-01-15 10:30:09  2.00         1.00         3        TCP,UDP    in1,in2        \n",
       "198.51.100.7    443      Unknown      Unknown         2024-01-15 10:30:02  2024-01-15 10:30:02  0.00         0.00         1        UDP                       \n",
       "198.51.100.7    443      Unknown      Unknown         2024-01-15 10:30:02  2024-01-15 10:30:02  0.00         0.00         1        UDP                       \n",
       "203.0.113.5     51000    Unknown      Unknown         2024-01-15 10:30:01  2024-01-15 10:30:09  2.00         1.00         3        UDP,TCP    in2,in1        \n"] ∧
    mapGet ((loadedTracker.Close okEnv defaultDisk).1.Close reverseEnv
        (loadedTracker.Close okEnv defaultDisk).2.1).2.1 loadedTracker.currentFile ≠
      mapGet (loadedTracker.Close okEnv defaultDisk).2.1 loadedTracker.currentFile :=
  have h := close_flushes_each_time okEnv reverseEnv loadedTracker defaultDisk (by decide)
    (by decide) (by decide) (by decide)
  ⟨by decide, by decide, by decide, by decide, h.1, h.2.2.1, by decide, h.2.2.2 (by decide)⟩

/-! ## The tick of the timer -/

theorem saveToFile_other (env : Env) (dt : DeviceTracker) (disk : Disk)
    (filePath other : String) (hne : other ≠ filePath) :
    mapGet (dt.saveToFile env disk filePath).1 other = mapGet disk other := by
  unfold DeviceTracker.saveToFile
  split
  · exact mapGet_mapSet_other _ _ _ _ hne
  · rfl

/-- A tick that finds the month changed: `initializeMonthlyFile` runs, a warning is
logged if it returns an error, and the flush goes to the target it has left. -/
theorem periodicSave_rotation (envInit envSave : Env) (dt : DeviceTracker) (disk : Disk)
    (now nowInit : Time) (hcur : dt.currentFile ≠ "")
    (hdet : stringsContains (filepathBase dt.currentFile) now.formatMonth = false)
    (hnew : (dt.initializeMonthlyFile envInit disk nowInit).1.currentFile ≠ "") :
    (dt.periodicSave envInit envSave disk now nowInit).1 =
      (dt.initializeMonthlyFile envInit disk nowInit).1 ∧
    (dt.periodicSave envInit envSave disk now nowInit).2.1 =
      ((dt.initializeMonthlyFile envInit disk nowInit).1.saveToFile envSave
        (dt.initializeMonthlyFile envInit disk nowInit).2.1
        (dt.initializeMonthlyFile envInit disk nowInit).1.currentFile).1 ∧
    (dt.periodicSave envInit envSave disk now nowInit).2.2 =
      (match (dt.initializeMonthlyFile envInit disk nowInit).2.2 with
        | none => []
        | some _ => ["failed to initialize new monthly file"]) ++
      (match ((dt.initializeMonthlyFile envInit disk nowInit).1.saveToFile envSave
          (dt.initializeMonthlyFile envInit disk nowInit).2.1
          (dt.initializeMonthlyFile envInit disk nowInit).1.currentFile).2 with
        | none => []
        | some _ => ["failed to save device data"]) := by
  revert hnew
  simp only [DeviceTracker.periodicSave, hcur, hdet, ne_eq, not_false_eq_true, and_self, if_true]
  cases dt.initializeMonthlyFile envInit disk nowInit with
  | mk dt1 rest =>
    cases rest with
    | mk disk1 err =>
      intro hnew
      cases err with
      | none =>
        simp only [hnew, not_false_eq_true, if_true]
        cases dt1.saveToFile envSave disk1 dt1.currentFile with
        | mk disk2 e => cases e <;> simp
      | some e1 =>
        simp only [hnew, not_false_eq_true, if_true]
        cases dt1.saveToFile envSave disk1 dt1.currentFile with
        | mk disk2 e => cases e <;> simp

/-- A tick that finds the month in the name of the current file: no call of
`initializeMonthlyFile`, and the flush goes to the current file. -/
theorem periodicSave_same_month (envInit envSave : Env) (dt : DeviceTracker) (disk : Disk)
    (now nowInit : Time) (hcur : dt.currentFile ≠ "")
    (hdet : stringsContains (filepathBase dt.currentFile) now.formatMonth = true) :
    (dt.periodicSave envInit envSave disk now nowInit).1 = dt ∧
    (dt.periodicSave envInit envSave disk now nowInit).2.1 =
      (dt.saveToFile envSave disk dt.currentFile).1 := by
  simp only [DeviceTracker.periodicSave, hcur, hdet, ne_eq, not_false_eq_true,
    Bool.true_eq_false, and_false, if_false, if_true]
  cases dt.saveToFile envSave disk dt.currentFile with
  | mk disk2 e => cases e <;> simp

/-- C7, amended. A failed rotation does not keep the previous target. When the current
target is the file of one month and `initializeMonthlyFile` runs in another month and
cannot create the new file, it returns the error after it has made its closing flush
to the previous target and set `currentFile` to the path of the new month. The tick of
`periodicSave` that made the call logs the warning and sends its flush to the new
path, and a later tick in that month makes no further call to `initializeMonthlyFile`
and flushes to the new path as well. -/
theorem failed_rotation_switches_to_new_path (envInit envSave envLaterInit envLater : Env)
    (dt : DeviceTracker) (disk diskLater : Disk) (t now nowInit later laterInit : Time)
    (hP : dt.currentFile = monthlyFilePath dt.outputDir t)
    (hy : t.year < 10000) (hm : t.month < 100)
    (hy' : now.year < 10000) (hm' : now.month < 100)
    (hmonth : now.formatMonth ≠ t.formatMonth)
    (hinit : nowInit.formatMonth = now.formatMonth)
    (hlater : later.formatMonth = now.formatMonth)
    (hfail : envInit.createOk (monthlyFilePath dt.outputDir now) = false) :
    (dt.initializeMonthlyFile envInit disk nowInit).2.2 = some "failed to create monthly file" ∧
    (dt.initializeMonthlyFile envInit disk nowInit).1.currentFile =
      monthlyFilePath dt.outputDir now ∧
    (dt.initializeMonthlyFile envInit disk nowInit).1.currentFile ≠ dt.currentFile ∧
    (dt.initializeMonthlyFile envInit disk nowInit).2.1 =
      (dt.saveToFile envInit disk dt.currentFile).1 ∧
    (dt.periodicSave envInit envSave disk now nowInit).1 =
      { dt with currentFile := monthlyFilePath dt.outputDir now } ∧
    (dt.periodicSave envInit envSave disk now nowInit).2.1 =
      (dt.saveToFile envSave (dt.saveToFile envInit disk dt.currentFile).1
        (monthlyFilePath dt.outputDir now)).1 ∧
    "failed to initialize new monthly file" ∈
      (dt.periodicSave envInit envSave disk now nowInit).2.2 ∧
    ((dt.periodicSave envInit envSave disk now nowInit).1.periodicSave envLaterInit envLater
        diskLater later laterInit).1 =
      { dt with currentFile := monthlyFilePath dt.outputDir now } ∧
    ((dt.periodicSave envInit envSave disk now nowInit).1.periodicSave envLaterInit envLater
        diskLater later laterInit).2.1 =
      (dt.saveToFile envLater diskLater (monthlyFilePath dt.outputDir now)).1 := by
  have hpath : monthlyFilePath dt.outputDir nowInit = monthlyFilePath dt.outputDir now := by
    unfold monthlyFilePath; rw [hinit]
  have hne : dt.currentFile ≠ monthlyFilePath dt.outputDir now := by
    rw [hP]
    intro h
    exact hmonth (monthlyFilePath_inj _ _ _ h hy hm hy' hm').symm
  have hcur : dt.currentFile ≠ "" := by rw [hP]; exact monthlyFilePath_ne_empty _ _
  have hnew : monthlyFilePath dt.outputDir now ≠ "" := monthlyFilePath_ne_empty _ _
  have hI : dt.initializeMonthlyFile envInit disk nowInit =
      ({ dt with currentFile := monthlyFilePath dt.outputDir now },
        (dt.saveToFile envInit disk dt.currentFile).1, some "failed to create monthly file") := by
    have h := initializeMonthlyFile_create_fails envInit dt disk nowInit
      (by rw [hpath]; exact hne) hcur (by rw [hpath]; exact hfail)
    rw [hpath] at h
    exact h
  have hdet : stringsContains (filepathBase dt.currentFile) now.formatMonth = false := by
    rw [hP]; exact rotation_detected _ _ _ hy hm hy' hm' hmonth
  obtain ⟨hT1, hT2, hT3⟩ := periodicSave_rotation envInit envSave dt disk now nowInit hcur hdet
    (by rw [hI]; exact hnew)
  rw [hI] at hT1 hT2 hT3
  have hkeep : stringsContains (filepathBase (monthlyFilePath dt.outputDir now))
      later.formatMonth = true := by
    rw [hlater]; exact rotation_not_detected _ _
  obtain ⟨hL1, hL2⟩ := periodicSave_same_month envLaterInit envLater
    { dt with currentFile := monthlyFilePath dt.outputDir now } diskLater later laterInit
    hnew hkeep
  rw [hT1, hT2, hT3, hI, hL1, hL2]
  refine ⟨rfl, rfl, fun h => hne h.symm, rfl, rfl, rfl, ?_, rfl, rfl⟩
  simp

set_option maxRecDepth 100000 in
/-- Witness of the amended C7 on the engine of the default directory: January target, a
tick in February, no file creation. -/
theorem failed_rotation_switches_to_new_path_witness :
    loadedTracker.outputDir = "./device_logs" ∧
    loadedTracker.currentFile = "device_logs/devices_2024-01.txt" ∧
    loadedTracker.currentFile = monthlyFilePath loadedTracker.outputDir (sampleTime 1) ∧
    februaryTime.formatMonth ≠ (sampleTime 1).formatMonth ∧
    noCreateEnv.createOk (monthlyFilePath loadedTracker.outputDir februaryTime) = false ∧
    (loadedTracker.initializeMonthlyFile noCreateEnv defaultDisk februaryTime).2.2 =
      some "failed to create monthly file" ∧
    (loadedTracker.initializeMonthlyFile noCreateEnv defaultDisk februaryTime).1.currentFile =
      monthlyFilePath loadedTracker.outputDir februaryTime ∧
    monthlyFilePath loadedTracker.outputDir februaryTime = "device_logs/devices_2024-02.txt" ∧
    (loadedTracker.initializeMonthlyFile noCreateEnv defaultDisk februaryTime).1.currentFile ≠
      loadedTracker.currentFile :=
  have h := failed_rotation_switches_to_new_path noCreateEnv okEnv okEnv reverseEnv
    loadedTracker defaultDisk defaultDisk (sampleTime 1) februaryTime februaryTime
    februaryLater februaryLater
    (by decide) (by decide) (by decide) (by decide) (by decide) (by decide) (by decide)
    (by decide) (by decide)
  ⟨by decide, by decide, by decide, by decide, by decide, h.1, h.2.1, by decide, h.2.2.1⟩

/-- What `initializeMonthlyFile` does when the file of the month of `now` is not the
current file and is created: the new path is the target, and every other file is as the
closing flush to the previous target left it. -/
theorem initializeMonthlyFile_created (env : Env) (dt : DeviceTracker) (disk : Disk)
    (now : Time) (hne : dt.currentFile ≠ monthlyFilePath dt.outputDir now)
    (hcur : dt.currentFile ≠ "")
    (hcreate : env.createOk (monthlyFilePath dt.outputDir now) = true) :
    (dt.initializeMonthlyFile env disk now).1 =
      { dt with currentFile := monthlyFilePath dt.outputDir now } ∧
    ∀ other, other ≠ monthlyFilePath dt.outputDir now →
      mapGet (dt.initializeMonthlyFile env disk now).2.1 other =
        mapGet (dt.saveToFile env disk dt.currentFile).1 other := by
  unfold monthlyFilePath at hne hcreate ⊢
  simp only [DeviceTracker.initializeMonthlyFile, hne, if_false, hcreate, hcur, ne_eq,
    not_false_eq_true, if_true]
  split
  · refine ⟨rfl, fun other ho => ?_⟩
    simp only
    rw [mapGet_mapSet_other _ _ _ _ ho, mapGet_mapSet_other _ _ _ _ ho]
  · refine ⟨rfl, fun other ho => ?_⟩
    simp only
    rw [mapGet_mapSet_other _ _ _ _ ho]

set_option maxRecDepth 100000 in
/-- C10, as stated, fails: with the January file as current target, a tick in February
and the February file created, but the January file not openable, the tick rotates to
the February file, the January file receives no flush, and nothing is logged. -/
theorem rotation_without_closing_flush :
    loadedTracker.currentFile = "device_logs/devices_2024-01.txt" ∧
    noAppendEnv.createOk "device_logs/devices_2024-02.txt" = true ∧
    (loadedTracker.periodicSave noAppendEnv okEnv defaultDisk februaryTime
      februaryTime).1.currentFile = "device_logs/devices_2024-02.txt" ∧
    mapGet (loadedTracker.periodicSave noAppendEnv okEnv defaultDisk februaryTime
        februaryTime).2.1 "device_logs/devices_2024-01.txt" =
      mapGet defaultDisk "device_logs/devices_2024-01.txt" ∧
    (loadedTracker.periodicSave noAppendEnv okEnv defaultDisk februaryTime
      februaryTime).2.2 = [] := by
  decide

/-- C10, amended. When the current target is the file of month M and a tick of
`periodicSave` falls in another month M' with the new file created, the tick leaves
`currentFile` at `devices_<M'>.txt` in the output directory, the registry as it was, and
every file other than the two targets untouched; its regular flush does not go to the
previous target, which is left as the closing flush of `initializeMonthlyFile` left it.
If that closing flush succeeds, the previous target holds its former content followed
by one flush of the registry, one line ending in a line break for each entry of the
device map. If the header write and the regular flush succeed, the new file holds its
header followed by the regular flush, and nothing is logged. -/
theorem periodicSave_rotates (envInit envSave : Env) (dt : DeviceTracker) (disk : Disk)
    (t now nowInit : Time) (hwf : dt.WF)
    (hP : dt.currentFile = monthlyFilePath dt.outputDir t)
    (hy : t.year < 10000) (hm : t.month < 100)
    (hy' : now.year < 10000) (hm' : now.month < 100)
    (hmonth : now.formatMonth ≠ t.formatMonth)
    (hinit : nowInit.formatMonth = now.formatMonth)
    (hcreate : envInit.createOk (monthlyFilePath dt.outputDir now) = true) :
    (dt.periodicSave envInit envSave disk now nowInit).1.currentFile =
      filepathJoin dt.outputDir ("devices_" ++ now.formatMonth ++ ".txt") ∧
    filepathBase (dt.periodicSave envInit envSave disk now nowInit).1.currentFile =
      "devices_" ++ now.formatMonth ++ ".txt" ∧
    (dt.periodicSave envInit envSave disk now nowInit).1.records = dt.records ∧
    (dt.periodicSave envInit envSave disk now nowInit).1.devices = dt.devices ∧
    mapGet (dt.periodicSave envInit envSave disk now nowInit).2.1 dt.currentFile =
      mapGet (dt.saveToFile envInit disk dt.currentFile).1 dt.currentFile ∧
    (∀ other, other ≠ dt.currentFile → other ≠ monthlyFilePath dt.outputDir now →
      mapGet (dt.periodicSave envInit envSave disk now nowInit).2.1 other =
        mapGet disk other) ∧
    ((dt.saveToFile envInit disk dt.currentFile).2 = none →
      mapGet (dt.periodicSave envInit envSave disk now nowInit).2.1 dt.currentFile =
        some ((mapGet disk dt.currentFile).getD "" ++
          concatLines ((dt.collect envInit).map (formatLine envInit))) ∧
      List.Forall₂ (fun kp line => ∃ d body, dt.deref kp.2 = some d ∧
          line = formatLine envInit d ∧ line = body ++ "\n" ∧ (d.plain → '\n' ∉ body.data))
        (envInit.order dt.devices) ((dt.collect envInit).map (formatLine envInit))) ∧
    (envInit.writeOk (monthlyFilePath dt.outputDir now)
        (fileHeader now.formatMonth nowInit) = true →
      (dt.saveToFile envSave disk (monthlyFilePath dt.outputDir now)).2 = none →
      mapGet (dt.periodicSave envInit envSave disk now nowInit).2.1
          (monthlyFilePath dt.outputDir now) =
        some (fileHeader now.formatMonth nowInit ++
          concatLines ((dt.collect envSave).map (formatLine envSave))) ∧
      List.Forall₂ (fun kp line => ∃ d body, dt.deref kp.2 = some d ∧
          line = formatLine envSave d ∧ line = body ++ "\n" ∧ (d.plain → '\n' ∉ body.data))
        (envSave.order dt.devices) ((dt.collect envSave).map (formatLine envSave)) ∧
      (dt.periodicSave envInit envSave disk now nowInit).2.2 = []) := by
  have hpath : monthlyFilePath dt.outputDir nowInit = monthlyFilePath dt.outputDir now := by
    unfold monthlyFilePath; rw [hinit]
  have hne : dt.currentFile ≠ monthlyFilePath dt.outputDir now := by
    rw [hP]
    intro h
    exact hmonth (monthlyFilePath_inj _ _ _ h hy hm hy' hm').symm
  have hcur : dt.currentFile ≠ "" := by rw [hP]; exact monthlyFilePath_ne_empty _ _
  have hnew : monthlyFilePath dt.outputDir now ≠ "" := monthlyFilePath_ne_empty _ _
  have hdet : stringsContains (filepathBase dt.currentFile) now.formatMonth = false := by
    rw [hP]; exact rotation_detected _ _ _ hy hm hy' hm' hmonth
  obtain ⟨hI1, hI2⟩ := initializeMonthlyFile_created envInit dt disk nowInit
    (by rw [hpath]; exact hne) hcur (by rw [hpath]; exact hcreate)
  rw [hpath] at hI1 hI2
  obtain ⟨hT1, hT2, hT3⟩ := periodicSave_rotation envInit envSave dt disk now nowInit hcur hdet
    (by rw [hI1]; exact hnew)
  rw [hI1] at hT1 hT2 hT3
  simp only [saveToFile_currentFile] at hT2 hT3
  have hold : mapGet (dt.periodicSave envInit envSave disk now nowInit).2.1 dt.currentFile =
      mapGet (dt.saveToFile envInit disk dt.currentFile).1 dt.currentFile := by
    rw [hT2, saveToFile_other _ _ _ _ _ hne, hI2 _ hne]
  refine ⟨by rw [hT1]; rfl, by rw [hT1]; exact filepathBase_monthly _ _, by rw [hT1],
    by rw [hT1], hold, ?_, ?_, ?_⟩
  · intro other h1 h2
    rw [hT2, saveToFile_other _ _ _ _ _ h2, hI2 _ h2, saveToFile_other _ _ _ _ _ h1]
  · intro hflushOld
    refine ⟨?_, collect_entries envInit dt hwf⟩
    rw [hold, saveToFile_ok envInit dt disk _ hflushOld, mapGet_mapSet_same]
  · intro hheader hflushNew
    have hI := initializeMonthlyFile_rotates envInit dt disk nowInit
      (by rw [hpath]; exact hne) hcur (by rw [hpath]; exact hcreate)
      (by rw [hpath, hinit]; exact hheader)
    rw [hpath, hinit] at hI
    have hstat : ∀ d : Disk,
        (dt.saveToFile envSave d (monthlyFilePath dt.outputDir now)).2 = none := by
      intro d; rw [saveToFile_status envSave dt d disk]; exact hflushNew
    refine ⟨?_, collect_entries envSave dt hwf, ?_⟩
    · rw [hT2, hI, saveToFile_ok envSave dt _ _ (hstat _), mapGet_mapSet_same,
        mapGet_mapSet_same]
      rfl
    · rw [hT3, hI, hstat]
      rfl

set_option maxRecDepth 100000 in
/-- Witness of the amended C10 on the engine of the default directory: January target, a
tick in February with every call succeeding, the regular flush visiting the map in
reverse; the lines written to the two files are written out. -/
theorem periodicSave_rotates_witness :
    loadedTracker.WF ∧
    loadedTracker.outputDir = "./device_logs" ∧
    loadedTracker.currentFile = "device_logs/devices_2024-01.txt" ∧
    loadedTracker.currentFile = monthlyFilePath loadedTracker.outputDir (sampleTime 1) ∧
    februaryTime.formatMonth ≠ (sampleTime 1).formatMonth ∧
    okEnv.createOk (monthlyFilePath loadedTracker.outputDir februaryTime) = true ∧
    (loadedTracker.periodicSave okEnv reverseEnv defaultDisk februaryTime
      februaryTime).1.currentFile =
      filepathJoin loadedTracker.outputDir ("devices_" ++ februaryTime.formatMonth ++ ".txt") ∧
    filepathJoin loadedTracker.outputDir ("devices_" ++ februaryTime.formatMonth ++ ".txt") =
      "device_logs/devices_2024-02.txt" ∧
    mapGet (loadedTracker.periodicSave okEnv reverseEnv defaultDisk februaryTime
        februaryTime).2.1 "device_logs/devices_2024-01.txt" =
      some ((mapGet defaultDisk "device_logs/devices_2024-01.txt").getD "" ++
        "203.0.113.5     51000    Unknown      Unknown         2024-01-15 10:30:01  2024-01-15 10:30:09  2.00         1.00         3        TCP,UDP    in1,in2        \n" ++
        "198.51.100.7    443      Unknown      Unknown         2024-01-15 10:30:02  2024-01-15 10:30:02  0.00         0.00         1        UDP                       \n") ∧
    mapGet (loadedTracker.periodicSave okEnv reverseEnv defaultDisk februaryTime
        februaryTime).2.1 "device_logs/devices_2024-02.txt" =
      some (fileHeader "2024-02" februaryTime ++
        "198.51.100.7    443      Unknown      Unknown         2024-01-15 10:30:02  2024-01-15 10:30:02  0.00         0.00         1        UDP                       \n" ++
        "203.0.113.5     51000    Unknown      Unknown         2024-01-15 10:30:01  2024-01-15 10:30:09  2.00         1.00         3        UDP,TCP    in2,in1        \n") :=
  have h := periodicSave_rotates okEnv reverseEnv loadedTracker defaultDisk (sampleTime 1)
    februaryTime februaryTime (by decide) (by decide) (by decide) (by decide) (by decide)
    (by decide) (by decide) (by decide) (by decide)
  ⟨by decide, by decide, by decide, by decide, by decide, by decide, h.1, by decide,
    by decide, by decide⟩

end devicetracker
